import Mathlib

/-!
A verification development for the Cell-Simulation repository.

The engine (src/simulation.py, src/config.py) is shallowly embedded below.
The repository's model module (the Patch and Cell classes imported by
simulation.py) is not among the available source files, so the Cell and
Patch operations used by the engine are modelled from the specification:
each such definition carries a doc comment starting with
"Modelled from the spec:".

Conventions of the embedding:
  * a Patch is identified by its (row, col) position; the Grid is a
    row-major list of rows, each row a list of optional Cells (the
    occupancy of the Patch at that position);
  * Python ints are Int (configuration fields) or Nat (cell counters,
    which start at 0 and only grow); the division probability is a
    rational number;
  * all randomness flows through one explicit RNG state threaded through
    every operation, modelling the single shared seedable source
    (Python's random module);
  * fallible construction returns Except String.
-/

set_option maxRecDepth 16000

namespace CellSim

/-- The single shared pseudo-random source.  The state is read as a
stream of base-2^53 digits: each draw takes the next digit.  This models
a seedable deterministic generator; the distribution of a real PRNG is
abstracted, but every draw is a pure function of the state. -/
structure RNG where
  state : Nat
deriving DecidableEq, Repr

/-- One raw draw: a value in [0, 2^53) and the successor state. -/
def RNG.next (g : RNG) : Nat × RNG :=
  (g.state % 2 ^ 53, ⟨g.state / 2 ^ 53⟩)

/-- Models random.random(): a rational in [0, 1). -/
def RNG.random (g : RNG) : ℚ × RNG :=
  (((g.next.1 : ℚ) / 2 ^ 53), g.next.2)

/-- The probability check random.random() < p: draws one uniform value
n, standing for the rational n / 2^53, and compares it with p under the
strict < of the source.  The comparison is stated by cross
multiplication so that it computes by integer arithmetic; the lemma
randomLt_eq_random_lt below proves it equal to the literal
random.random() < p comparison. -/
def RNG.randomLt (g : RNG) (p : ℚ) : Bool × RNG :=
  (decide ((g.next.1 : Int) * p.den < p.num * 2 ^ 53), g.next.2)

/-- Models random.choice(l) for nonempty l: picks the (k mod length)-th
element.  The default d is only reached on an empty list, on which the
source never calls choice. -/
def RNG.choose (l : List (Nat × Nat)) (g : RNG) : (Nat × Nat) × RNG :=
  (l.getD (g.next.1 % l.length) (0, 0), g.next.2)

/-- A cause of death, as tagged by the engine. -/
inductive Cause
  | age
  | division_limit
  | overcrowding
deriving DecidableEq, Repr

/-- A set of causes (the Python code stores a set of the three tags). -/
structure Causes where
  age : Bool
  division_limit : Bool
  overcrowding : Bool
deriving DecidableEq, Repr

def Causes.empty : Causes := ⟨false, false, false⟩

/-- set.add of one cause tag. -/
def Causes.add (cs : Causes) : Cause → Causes
  | Cause.age => { cs with age := true }
  | Cause.division_limit => { cs with division_limit := true }
  | Cause.overcrowding => { cs with overcrowding := true }

def Causes.isEmpty (cs : Causes) : Bool :=
  !cs.age && !cs.division_limit && !cs.overcrowding

/-- Modelled from the spec: the Cell of the missing model module.
Per-agent state machine: age, divisions, ticks-since-last-division
(called last_division after the accessor used in simulation.py), and the
alive flag. -/
structure Cell where
  age : Nat
  divisions : Nat
  last_division : Nat
  alive : Bool
deriving DecidableEq, Repr

/-- Modelled from the spec: a brand-new Alive Cell with
age = 0, divisions = 0, ticks_since_division = 0.  Constructing a Cell
on a Patch places it there (simulation.py's seeding relies on the bare
constructor call Cell(patch) to occupy the patch), so placement is done
by the grid update at each creation site below. -/
def Cell.newborn : Cell := ⟨0, 0, 0, true⟩

/-- Modelled from the spec: advance(), called cell.tick() in
simulation.py; valid only while Alive (the engine checks is_alive before
calling it): increments age and ticks_since_division by 1. -/
def Cell.tick (c : Cell) : Cell :=
  { c with age := c.age + 1, last_division := c.last_division + 1 }

/-- The Grid: row-major occupancy, one optional Cell per Patch. -/
abbrev Grid := List (List (Option Cell))

/-- patch.has_cell() / patch.cell() at position p. -/
def cellAt (grid : Grid) (p : Nat × Nat) : Option Cell :=
  (grid.getD p.1 []).getD p.2 none

/-- Replace the occupancy at position p. -/
def setCell (grid : Grid) (p : Nat × Nat) (oc : Option Cell) : Grid :=
  grid.set p.1 ((grid.getD p.1 []).set p.2 oc)

/-- The configuration object of src/config.py (the visualisation flag is
kept but the visualiser itself is out of scope). -/
structure Configuration where
  grid_rows : Int
  grid_cols : Int
  initial_population : Int
  age_limit : Int
  division_limit : Int
  division_probability : ℚ
  division_cooldown : Int
  time_limit : Int
  visualisation_enabled : Bool
deriving DecidableEq, Repr

/-- Configuration.reset_defaults of src/config.py. -/
def Configuration.defaults : Configuration :=
  { grid_rows := 15
    grid_cols := 25
    initial_population := 2
    age_limit := 10
    division_limit := 2
    division_probability := 1 / 5
    division_cooldown := 2
    time_limit := 100
    visualisation_enabled := true }

/-- Configuration.validate of src/config.py: the exact sequence of
checks, first failing check reported. -/
def Configuration.validate (cfg : Configuration) : Except String Unit :=
  if cfg.grid_rows < 3 then
    Except.error "Grid rows must be at least 3."
  else if cfg.grid_cols < 3 then
    Except.error "Grid columns must be at least 3."
  else if cfg.initial_population < 1 then
    Except.error "Initial population must be at least 1."
  else if cfg.initial_population > cfg.grid_rows * cfg.grid_cols then
    Except.error "Initial population cannot exceed total number of patches."
  else if cfg.age_limit < 1 then
    Except.error "Age limit must be at least 1."
  else if cfg.division_limit < 1 then
    Except.error "Division limit must be at least 1."
  else if ¬(0 ≤ cfg.division_probability ∧ cfg.division_probability ≤ 1) then
    Except.error "Division probability must be between 0 and 1."
  else if cfg.division_cooldown < 1 then
    Except.error "Division cooldown must be at least 1."
  else if cfg.time_limit < 1 then
    Except.error "Time limit must be at least 1."
  else Except.ok ()

/-- Python modulo on a positive Nat modulus (Lean's Int emod agrees with
Python's % for a positive divisor). -/
def wrap (i : Int) (n : Nat) : Nat :=
  (i % (n : Int)).toNat

/-- The 8 neighbor offsets in the order the nested Python loops visit
them (dr in (-1,0,1), dc in (-1,0,1), skipping (0,0)). -/
def neighborOffsets : List (Int × Int) :=
  [(-1, -1), (-1, 0), (-1, 1), (0, -1), (0, 1), (1, -1), (1, 0), (1, 1)]

/-- The 9 offsets of the 3x3 region in nested-loop order, center
included. -/
def regionOffsets : List (Int × Int) :=
  [(-1, -1), (-1, 0), (-1, 1), (0, -1), (0, 0), (0, 1), (1, -1), (1, 0), (1, 1)]

/-- Simulation._empty_neighbors: coordinates of the empty patches among
the 8 wrapped neighbors, in loop order. -/
def emptyNeighbors (cfg : Configuration) (grid : Grid) (row col : Nat) :
    List (Nat × Nat) :=
  neighborOffsets.filterMap fun d =>
    let nr := wrap ((row : Int) + d.1) cfg.grid_rows.toNat
    let nc := wrap ((col : Int) + d.2) cfg.grid_cols.toNat
    if cellAt grid (nr, nc) = none then some (nr, nc) else none

/-- The 9 coordinates of the 3x3 region around (row, col), wrapped. -/
def regionCoords (cfg : Configuration) (row col : Nat) : List (Nat × Nat) :=
  regionOffsets.map fun d =>
    (wrap ((row : Int) + d.1) cfg.grid_rows.toNat,
     wrap ((col : Int) + d.2) cfg.grid_cols.toNat)

/-- The (patch, age) pairs of the alive occupants of the region, in
region order. -/
def regionCells (grid : Grid) (coords : List (Nat × Nat)) :
    List ((Nat × Nat) × Nat) :=
  coords.filterMap fun p =>
    match cellAt grid p with
    | some cell => if cell.alive then some (p, cell.age) else none
    | none => none

/-- max over the ages of a region-cell list (0 on the empty list, on
which the source never takes the max). -/
def maxAge (l : List ((Nat × Nat) × Nat)) : Nat :=
  (l.map Prod.snd).foldl Nat.max 0

/-- The pending-death map: Patch position to accumulated cause set, in
insertion order (Python dicts preserve insertion order). -/
abbrev DieMap := List ((Nat × Nat) × Causes)

/-- Assoc lookup: cells_to_die.get(patch). -/
def DieMap.find? : DieMap → (Nat × Nat) → Option Causes
  | [], _ => none
  | e :: m, p => if e.1 = p then some e.2 else DieMap.find? m p

/-- cells_to_die.setdefault(patch, set()).add(c): extends the existing
entry in place, or appends a fresh one-cause entry at the end. -/
def DieMap.addCause : DieMap → (Nat × Nat) → Cause → DieMap
  | [], p, c => [(p, Causes.empty.add c)]
  | e :: m, p, c =>
    if e.1 = p then (e.1, e.2.add c) :: m else e :: DieMap.addCause m p c

def DieMap.keys (m : DieMap) : List (Nat × Nat) := m.map Prod.fst

/-- Row-major traversal order of all grid positions. -/
def rowMajor (m n : Nat) : List (Nat × Nat) :=
  List.range m ×ˢ List.range n

/-- The state carried through one tick: the grid, the pending-death map,
the (recorded, never consumed) births list, and the running statistics
counters together with the RNG. -/
structure TickState where
  grid : Grid
  toDie : DieMap
  births : List ((Nat × Nat) × Cell)
  created : Nat
  deaths : Nat
  byAge : Nat
  byDivisionLimit : Nat
  byOvercrowding : Nat
  rng : RNG
deriving DecidableEq, Repr

/-- The per-patch effect of phase 1: an alive occupant is aged, a dead
or absent occupant is left alone. -/
def ageSlot : Option Cell → Option Cell
  | some c => if c.alive then some c.tick else some c
  | none => none

/-- Phase 1 of Simulation._simulate_tick: age every alive cell. -/
def agePhase (grid : Grid) : Grid :=
  grid.map fun row => row.map ageSlot

/-- The per-patch step of phase 2: tag age when age has reached
age_limit and division_limit when divisions has reached division_limit
(two independent checks, as in the source). -/
def deathScanStep (cfg : Configuration) (grid : Grid) (m : DieMap)
    (p : Nat × Nat) : DieMap :=
  match cellAt grid p with
  | some c =>
    if c.alive then
      let m1 := if (c.age : Int) ≥ cfg.age_limit then m.addCause p Cause.age
        else m
      if (c.divisions : Int) ≥ cfg.division_limit then
        m1.addCause p Cause.division_limit
      else m1
    else m
  | none => m

/-- Phase 2 of Simulation._simulate_tick: schedule deaths by age or
division limit, scanning the grid row-major. -/
def deathScan (cfg : Configuration) (grid : Grid) (m : DieMap) : DieMap :=
  (rowMajor cfg.grid_rows.toNat cfg.grid_cols.toNat).foldl
    (deathScanStep cfg grid) m

/-- The Patches of the region cells whose age attains the maximum, in
region order. -/
def oldestPatches (cells : List ((Nat × Nat) × Nat)) : List (Nat × Nat) :=
  cells.filterMap fun e => if e.2 = maxAge cells then some e.1 else none

/-- Simulation._handle_overcrowding: among the alive cells of the 3x3
region, pick one patch of maximal age uniformly and tag it with
overcrowding, merging into its pending-death entry. -/
def handleOvercrowding (cfg : Configuration) (grid : Grid) (m : DieMap)
    (g : RNG) (row col : Nat) : DieMap × RNG :=
  let cells := regionCells grid (regionCoords cfg row col)
  if cells = [] then (m, g)
  else
    let oldest := oldestPatches cells
    (m.addCause (RNG.choose oldest g).1 Cause.overcrowding,
     (RNG.choose oldest g).2)

/-- One visit of phase 3 of Simulation._simulate_tick at position p:
skip empty patches, dead cells, patches already scheduled to die, and
cells still in cooldown; otherwise either divide into a random empty
neighbor (placing the child immediately, as Cell(patch) does) or, with
no empty neighbor, resolve overcrowding on the spot. -/
def divisionVisit (cfg : Configuration) (s : TickState) (p : Nat × Nat) :
    TickState :=
  match cellAt s.grid p with
  | none => s
  | some cell =>
    if cell.alive = false then s
    else if (s.toDie.find? p).isSome then s
    else if (cell.last_division : Int) < cfg.division_cooldown then s
    else
      let empty := emptyNeighbors cfg s.grid p.1 p.2
      if empty = [] then
        let r := handleOvercrowding cfg s.grid s.toDie s.rng p.1 p.2
        { s with toDie := r.1, rng := r.2 }
      else
        let br := s.rng.randomLt cfg.division_probability
        if br.1 then
          let t := (RNG.choose empty br.2).1
          let g2 := (RNG.choose empty br.2).2
          let parent : Cell :=
            { cell with divisions := cell.divisions + 1, last_division := 0 }
          let child := Cell.newborn
          let grid' := setCell (setCell s.grid p (some parent)) t (some child)
          let toDie' :=
            if (parent.divisions : Int) ≥ cfg.division_limit then
              s.toDie.addCause p Cause.division_limit
            else s.toDie
          { s with
              grid := grid'
              toDie := toDie'
              births := s.births ++ [(t, child)]
              created := s.created + 1
              rng := g2 }
        else { s with rng := br.2 }

/-- Phase 3 of Simulation._simulate_tick: the row-major division pass. -/
def divisionPhase (cfg : Configuration) (s : TickState) : TickState :=
  (rowMajor cfg.grid_rows.toNat cfg.grid_cols.toNat).foldl (divisionVisit cfg) s

/-- One entry of the commit phase.  Modelled from the spec: cell.die()
of the missing model module transitions Alive to Dead and removes the
dead Cell's occupancy from its Patch (the spec's commit phase removes
the occupancy, and in src the entire commit effect is the single
cell.die() call). -/
def commitEntry (st : TickState) (e : (Nat × Nat) × Causes) : TickState :=
  match cellAt st.grid e.1 with
  | none => st
  | some cell =>
    if cell.alive then
      { st with
          grid := setCell st.grid e.1 none
          deaths := st.deaths + 1
          byAge := st.byAge + (if e.2.age then 1 else 0)
          byDivisionLimit := st.byDivisionLimit + (if e.2.division_limit then 1 else 0)
          byOvercrowding := st.byOvercrowding + (if e.2.overcrowding then 1 else 0) }
    else st

/-- Phase 5 of Simulation._simulate_tick: apply the scheduled deaths in
insertion order. -/
def commitPhase (s : TickState) : TickState :=
  s.toDie.foldl commitEntry s

/-- The engine state: src/simulation.py's Simulation object. -/
structure Simulation where
  config : Configuration
  grid : Grid
  current_tick : Nat
  total_cells_created : Nat
  total_deaths : Nat
  deaths_by_age : Nat
  deaths_by_division_limit : Nat
  deaths_by_overcrowding : Nat
  rng : RNG
deriving DecidableEq, Repr

/-- Fisher-Yates-style shuffle by repeated random extraction, modelling
random.shuffle: the result is a permutation of the input determined by
the RNG state.  Fuel is the list length. -/
def shuffleGo : Nat → List (Nat × Nat) → List (Nat × Nat) → RNG →
    List (Nat × Nat) × RNG
  | 0, _, acc, g => (acc, g)
  | k + 1, l, acc, g =>
    if l = [] then (acc, g)
    else
      let (n, g') := g.next
      let j := n % l.length
      shuffleGo k (l.eraseIdx j) (l.getD j (0, 0) :: acc) g'

def shuffle (l : List (Nat × Nat)) (g : RNG) : List (Nat × Nat) × RNG :=
  shuffleGo l.length l [] g

/-- The seeding loop of Simulation._seed_initial_cells: pop positions
from the end of the shuffled list, placing a newborn Cell on each. -/
def seedLoop : Nat → List (Nat × Nat) → Grid → Nat →
    Grid × Nat × List (Nat × Nat)
  | 0, ps, grid, created => (grid, created, ps)
  | n + 1, ps, grid, created =>
    if ps.isEmpty then (grid, created, ps)
    else
      seedLoop n ps.dropLast
        (setCell grid (ps.getLastD (0, 0)) (some Cell.newborn)) (created + 1)

/-- The all-empty grid of the configured dimensions. -/
def emptyGrid (cfg : Configuration) : Grid :=
  List.replicate cfg.grid_rows.toNat (List.replicate cfg.grid_cols.toNat none)

/-- Simulation.__init__ after a successful validate: build the grid,
zero the statistics, seed the initial cells. -/
def Simulation.build (cfg : Configuration) (g : RNG) : Simulation :=
  let positions := rowMajor cfg.grid_rows.toNat cfg.grid_cols.toNat
  let sg := shuffle positions g
  let seeded := seedLoop cfg.initial_population.toNat sg.1 (emptyGrid cfg) 0
  { config := cfg
    grid := seeded.1
    current_tick := 0
    total_cells_created := seeded.2.1
    total_deaths := 0
    deaths_by_age := 0
    deaths_by_division_limit := 0
    deaths_by_overcrowding := 0
    rng := sg.2 }

/-- Simulation.__init__: validate first; on failure no engine state is
built, on success the fully-built engine is returned. -/
def Simulation.init (cfg : Configuration) (g : RNG) :
    Except String Simulation :=
  match cfg.validate with
  | Except.error e => Except.error e
  | Except.ok _ => Except.ok (Simulation.build cfg g)

/-- The tick state at the start of phase 3 (after aging and death
scheduling), from a given engine state. -/
def Simulation.tickDataStart (sim : Simulation) : TickState :=
  { grid := agePhase sim.grid
    toDie := deathScan sim.config (agePhase sim.grid) []
    births := []
    created := sim.total_cells_created
    deaths := sim.total_deaths
    byAge := sim.deaths_by_age
    byDivisionLimit := sim.deaths_by_division_limit
    byOvercrowding := sim.deaths_by_overcrowding
    rng := sim.rng }

/-- The tick state at the start of phase 5 (after aging, death
scheduling, and the division pass), from a given engine state. -/
def Simulation.tickData (sim : Simulation) : TickState :=
  divisionPhase sim.config sim.tickDataStart

/-- Simulation._simulate_tick: the five phases in order; the commit is
applied to the phase-1..4 result. -/
def Simulation.tick (sim : Simulation) : Simulation :=
  let tf := commitPhase sim.tickData
  { sim with
      grid := tf.grid
      total_cells_created := tf.created
      total_deaths := tf.deaths
      deaths_by_age := tf.byAge
      deaths_by_division_limit := tf.byDivisionLimit
      deaths_by_overcrowding := tf.byOvercrowding
      rng := tf.rng }

/-- n ticks in sequence (no early-exit check; run below adds it). -/
def Simulation.tickN (sim : Simulation) : Nat → Simulation
  | 0 => sim
  | n + 1 => (sim.tickN n).tick

/-- Simulation._all_cells_dead. -/
def Simulation.allCellsDead (sim : Simulation) : Bool :=
  sim.grid.all fun row =>
    row.all fun oc =>
      match oc with
      | some c => !c.alive
      | none => true

/-- The driving loop of Simulation.run (fuelled; the fuel of time_limit
iterations is exactly enough for a fresh engine). -/
def Simulation.runAux : Nat → Simulation → Simulation
  | 0, sim => sim
  | k + 1, sim =>
    if (sim.current_tick : Int) < sim.config.time_limit then
      if sim.allCellsDead then sim
      else
        Simulation.runAux k
          { sim.tick with current_tick := sim.current_tick + 1 }
    else sim

def Simulation.run (sim : Simulation) : Simulation :=
  Simulation.runAux sim.config.time_limit.toNat sim

/-- The statistics tuple the report exposes:
(total_created, total_deaths, by_age, by_division_limit,
by_overcrowding). -/
def Simulation.stats (sim : Simulation) : Nat × Nat × Nat × Nat × Nat :=
  (sim.total_cells_created, sim.total_deaths, sim.deaths_by_age,
   sim.deaths_by_division_limit, sim.deaths_by_overcrowding)

/-- The statistics trajectory of a run from a configuration and a seed:
the stats after n unconditional ticks, or none when validation fails. -/
def statsAfter (cfg : Configuration) (seed : Nat) (n : Nat) :
    Option (Nat × Nat × Nat × Nat × Nat) :=
  match Simulation.init cfg ⟨seed⟩ with
  | Except.error _ => none
  | Except.ok sim => some (sim.tickN n).stats

/-- The number of occupied Patches of the grid. -/
def occupiedCount (grid : Grid) : Nat :=
  (grid.map fun row => row.countP fun oc => oc.isSome).sum

/-- The configured constraints of section 6 of the spec, as one
predicate (the non-violation of every validate check). -/
def validConfig (cfg : Configuration) : Prop :=
  3 ≤ cfg.grid_rows ∧ 3 ≤ cfg.grid_cols ∧
  1 ≤ cfg.initial_population ∧
  cfg.initial_population ≤ cfg.grid_rows * cfg.grid_cols ∧
  1 ≤ cfg.age_limit ∧ 1 ≤ cfg.division_limit ∧
  (0 ≤ cfg.division_probability ∧ cfg.division_probability ≤ 1) ∧
  1 ≤ cfg.division_cooldown ∧ 1 ≤ cfg.time_limit

instance (cfg : Configuration) : Decidable (validConfig cfg) := by
  unfold validConfig; infer_instance

/-- The grid has the configured dimensions. -/
def gridWF (cfg : Configuration) (grid : Grid) : Prop :=
  grid.length = cfg.grid_rows.toNat ∧
  ∀ row ∈ grid, row.length = cfg.grid_cols.toNat

instance (cfg : Configuration) (grid : Grid) : Decidable (gridWF cfg grid) := by
  unfold gridWF
  infer_instance

/-! ### Basic grid lemmas -/

theorem length_setCell (g : Grid) (q : Nat × Nat) (oc : Option Cell) :
    (setCell g q oc).length = g.length := by
  simp [setCell]

/-- getD after set, in closed form. -/
theorem getD_set_pointwise {α : Type} (l : List α) (i j : Nat) (a d : α) :
    (l.set i a).getD j d = if i = j ∧ i < l.length then a else l.getD j d := by
  simp only [List.getD_eq_getElem?_getD, List.getElem?_set]
  by_cases hij : i = j
  · subst hij
    by_cases hi : i < l.length
    · simp [hi]
    · simp [hi, List.getElem?_eq_none (Nat.le_of_not_lt hi)]
  · simp [hij]

theorem rowLen_setCell (g : Grid) (q : Nat × Nat) (oc : Option Cell)
    (r : Nat) : ((setCell g q oc).getD r []).length = (g.getD r []).length := by
  unfold setCell
  rw [getD_set_pointwise]
  by_cases h : q.1 = r ∧ q.1 < g.length
  · rw [if_pos h, List.length_set, h.1]
  · rw [if_neg h]

theorem cellAt_setCell (g : Grid) (q p : Nat × Nat) (oc : Option Cell) :
    cellAt (setCell g q oc) p =
      if p = q ∧ q.1 < g.length ∧ q.2 < (g.getD q.1 []).length then oc
      else cellAt g p := by
  unfold cellAt setCell
  rw [getD_set_pointwise]
  by_cases h : q.1 = p.1 ∧ q.1 < g.length
  · rw [if_pos h, getD_set_pointwise]
    by_cases h2 : q.2 = p.2 ∧ q.2 < (g.getD q.1 []).length
    · have hpq : p = q := Prod.ext h.1.symm h2.1.symm
      rw [if_pos h2, if_pos ⟨hpq, h.2, h2.2⟩]
    · have : ¬(p = q ∧ q.1 < g.length ∧ q.2 < (g.getD q.1 []).length) := by
        rintro ⟨hpq, -, hb⟩
        exact h2 ⟨(congrArg Prod.snd hpq).symm, hb⟩
      rw [if_neg h2, if_neg this, h.1]
  · have : ¬(p = q ∧ q.1 < g.length ∧ q.2 < (g.getD q.1 []).length) := by
      rintro ⟨hpq, hb, -⟩
      exact h ⟨(congrArg Prod.fst hpq).symm, hb⟩
    rw [if_neg h, if_neg this]

theorem cellAt_setCell_self (g : Grid) (q : Nat × Nat) (oc : Option Cell)
    (h1 : q.1 < g.length) (h2 : q.2 < (g.getD q.1 []).length) :
    cellAt (setCell g q oc) q = oc := by
  rw [cellAt_setCell, if_pos ⟨rfl, h1, h2⟩]

theorem cellAt_setCell_ne (g : Grid) (q p : Nat × Nat) (oc : Option Cell)
    (h : p ≠ q) : cellAt (setCell g q oc) p = cellAt g p := by
  rw [cellAt_setCell]; simp [h]

theorem gridWF_setCell (cfg : Configuration) (g : Grid) (q : Nat × Nat)
    (oc : Option Cell) (h : gridWF cfg g) : gridWF cfg (setCell g q oc) := by
  obtain ⟨hl, hr⟩ := h
  constructor
  · rw [length_setCell]; exact hl
  · intro row hrow
    unfold setCell at hrow
    rcases Nat.lt_or_ge q.1 g.length with hlt | hge
    · rcases List.mem_or_eq_of_mem_set hrow with hm | he
      · exact hr row hm
      · subst he
        rw [List.length_set, List.getD_eq_getElem _ _ hlt]
        exact hr _ (List.getElem_mem hlt)
    · rw [List.set_eq_of_length_le hge] at hrow
      exact hr row hrow

theorem gridWF_rowLen (cfg : Configuration) (g : Grid) (h : gridWF cfg g)
    (r : Nat) (hr : r < g.length) :
    (g.getD r []).length = cfg.grid_cols.toNat := by
  rw [List.getD_eq_getElem _ _ hr]
  exact h.2 _ (List.getElem_mem hr)

theorem cellAt_oob (g : Grid) (p : Nat × Nat) (h : g.length ≤ p.1) :
    cellAt g p = none := by
  unfold cellAt
  rw [List.getD_eq_default _ _ h]
  simp

theorem cellAt_oob_col (g : Grid) (p : Nat × Nat)
    (h : (g.getD p.1 []).length ≤ p.2) : cellAt g p = none := by
  unfold cellAt
  exact List.getD_eq_default _ _ h

/-! ### rowMajor lemmas -/

theorem mem_rowMajor (m n : Nat) (p : Nat × Nat) :
    p ∈ rowMajor m n ↔ p.1 < m ∧ p.2 < n := by
  obtain ⟨a, b⟩ := p
  simp [rowMajor, List.mem_product]

theorem nodup_rowMajor (m n : Nat) : (rowMajor m n).Nodup :=
  (List.nodup_range m).product (List.nodup_range n)

theorem length_rowMajor (m n : Nat) : (rowMajor m n).length = m * n := by
  simp [rowMajor, List.length_product]

/-! ### occupiedCount lemmas -/

theorem occupiedCount_setCell_some (g : Grid) (q : Nat × Nat) (c : Cell)
    (h1 : q.1 < g.length) (h2 : q.2 < (g.getD q.1 []).length)
    (h3 : cellAt g q = none) :
    occupiedCount (setCell g q (some c)) = occupiedCount g + 1 := by
  unfold occupiedCount setCell
  induction g generalizing q with
  | nil => simp at h1
  | cons row rest ih =>
    obtain ⟨r, cc⟩ := q
    cases r with
    | zero =>
      simp only [List.getD_cons_zero] at h2 h3 ⊢
      simp only [List.set_cons_zero, List.map_cons, List.sum_cons]
      have : (List.countP (fun oc => oc.isSome) (row.set cc (some c))) =
          List.countP (fun oc => oc.isSome) row + 1 := by
        rw [List.countP_set _ _ _ _ h2]
        have : row[cc] = none := by
          have := h3
          unfold cellAt at this
          simp only [List.getD_cons_zero] at this
          rwa [List.getD_eq_getElem _ _ h2] at this
        simp [this]
      omega
    | succ r' =>
      simp only [List.getD_cons_succ] at h2 h3 ⊢
      simp only [List.set_cons_succ, List.map_cons, List.sum_cons]
      have hr' : r' < rest.length := by simpa using h1
      have := ih (r', cc) hr' h2 (by
        unfold cellAt at h3 ⊢
        simpa using h3)
      simp only at this
      omega

theorem cellAt_emptyGrid (cfg : Configuration) (p : Nat × Nat) :
    cellAt (emptyGrid cfg) p = none := by
  unfold cellAt emptyGrid
  rcases Nat.lt_or_ge p.1 cfg.grid_rows.toNat with h | h
  · have h1 : (List.replicate cfg.grid_rows.toNat
        (List.replicate cfg.grid_cols.toNat (none : Option Cell))).getD p.1 []
        = List.replicate cfg.grid_cols.toNat none := by
      rw [List.getD_eq_getElem _ _ (by rw [List.length_replicate]; exact h)]
      exact List.getElem_replicate _ _
    rw [h1]
    rcases Nat.lt_or_ge p.2 cfg.grid_cols.toNat with h2 | h2
    · rw [List.getD_eq_getElem _ _ (by rw [List.length_replicate]; exact h2)]
      exact List.getElem_replicate _ _
    · exact List.getD_eq_default _ _ (by rw [List.length_replicate]; exact h2)
  · have h0 : (List.replicate cfg.grid_rows.toNat
        (List.replicate cfg.grid_cols.toNat (none : Option Cell))).getD p.1 []
        = [] := List.getD_eq_default _ _ (by rw [List.length_replicate]; exact h)
    rw [h0]
    simp

theorem occupiedCount_emptyGrid (cfg : Configuration) :
    occupiedCount (emptyGrid cfg) = 0 := by
  unfold occupiedCount emptyGrid
  simp [List.countP_eq_zero]

theorem gridWF_emptyGrid (cfg : Configuration) : gridWF cfg (emptyGrid cfg) := by
  constructor
  · simp [emptyGrid]
  · intro row hrow
    rw [List.eq_of_mem_replicate hrow]
    simp

/-! ### shuffle lemmas -/

theorem perm_cons_getD_eraseIdx (l : List (Nat × Nat)) (j : Nat)
    (h : j < l.length) : l.Perm (l.getD j (0, 0) :: l.eraseIdx j) := by
  induction l generalizing j with
  | nil => simp at h
  | cons x xs ih =>
    cases j with
    | zero => simp
    | succ j' =>
      have hj' : j' < xs.length := by simpa using h
      exact ((ih j' hj').cons x).trans (List.Perm.swap _ _ _)

theorem shuffleGo_perm (k : Nat) (l acc : List (Nat × Nat)) (g : RNG)
    (h : l.length ≤ k) : ((shuffleGo k l acc g).1).Perm (l ++ acc) := by
  induction k generalizing l acc g with
  | zero =>
    have : l = [] := List.length_eq_zero.mp (Nat.le_zero.mp h)
    subst this
    simp [shuffleGo]
  | succ k ih =>
    by_cases hl : l = []
    · subst hl; simp [shuffleGo]
    · have hlen : 0 < l.length := List.length_pos.mpr hl
      have hj : (g.next.1 % l.length) < l.length := Nat.mod_lt _ hlen
      unfold shuffleGo
      simp only [hl, if_false]
      have hlen' : (l.eraseIdx (g.next.1 % l.length)).length ≤ k := by
        rw [List.length_eraseIdx]
        simp only [hj, if_true]
        omega
      have hperm := ih (l.eraseIdx (g.next.1 % l.length))
        (l.getD (g.next.1 % l.length) (0, 0) :: acc) g.next.2 hlen'
      refine hperm.trans ?_
      have h2 : l.Perm (l.getD (g.next.1 % l.length) (0, 0) ::
          l.eraseIdx (g.next.1 % l.length)) := perm_cons_getD_eraseIdx l _ hj
      exact List.perm_middle.trans (List.Perm.append_right acc h2).symm

theorem shuffle_perm (l : List (Nat × Nat)) (g : RNG) :
    ((shuffle l g).1).Perm l := by
  have := shuffleGo_perm l.length l [] g (Nat.le_refl _)
  simpa [shuffle] using this

theorem getLastD_eq_getLast (l : List (Nat × Nat)) (d : Nat × Nat)
    (h : l ≠ []) : l.getLastD d = l.getLast h := by
  cases l with
  | nil => exact absurd rfl h
  | cons a t => rw [List.getLast_eq_getLastD, List.getLastD_cons]

theorem getLastD_mem (l : List (Nat × Nat)) (d : Nat × Nat) (h : l ≠ []) :
    l.getLastD d ∈ l := by
  rw [getLastD_eq_getLast l d h]
  exact List.getLast_mem h

theorem dropLast_append_getLastD (l : List (Nat × Nat)) (d : Nat × Nat)
    (h : l ≠ []) : l.dropLast ++ [l.getLastD d] = l := by
  rw [getLastD_eq_getLast l d h]
  exact List.dropLast_append_getLast h

theorem getLastD_not_mem_dropLast (l : List (Nat × Nat)) (d : Nat × Nat)
    (h : l ≠ []) (hnd : l.Nodup) : l.getLastD d ∉ l.dropLast := by
  intro hmem
  have heq := dropLast_append_getLastD l d h
  rw [← heq] at hnd
  rcases List.nodup_append.mp hnd with ⟨-, -, hdisj⟩
  exact hdisj hmem (by simp)

/-- The integer-arithmetic form of the probability check coincides with
the source's literal random.random() < p comparison. -/
theorem randomLt_eq_random_lt (g : RNG) (p : ℚ) :
    (g.randomLt p).1 = decide ((g.random).1 < p) := by
  unfold RNG.randomLt RNG.random
  rw [decide_eq_decide]
  have h2 : (0 : ℚ) < 2 ^ 53 := by positivity
  have hd : (0 : ℚ) < (p.den : ℚ) := by
    exact_mod_cast p.pos
  rw [div_lt_iff h2]
  conv_rhs => rw [← Rat.num_div_den p]
  rw [div_mul_eq_mul_div, lt_div_iff hd]
  exact_mod_cast Iff.rfl

/-- random.random() always returns a value strictly below 1, so with
division_probability = 1 every draw succeeds. -/
theorem randomLt_one (g : RNG) : (g.randomLt 1).1 = true := by
  unfold RNG.randomLt RNG.next
  simp only [Rat.den_ofNat, Nat.cast_one, mul_one, Rat.num_ofNat, one_mul,
    decide_eq_true_eq]
  have : g.state % 2 ^ 53 < 2 ^ 53 := Nat.mod_lt _ (by norm_num)
  exact_mod_cast this

/-! ### Occupancy through the phases -/

theorem getD_map_default {α β : Type} (f : α → β) (l : List α) (i : Nat)
    (da : α) (db : β) (h : f da = db) :
    (l.map f).getD i db = f (l.getD i da) := by
  rcases Nat.lt_or_ge i l.length with hlt | hge
  · rw [List.getD_eq_getElem _ _ (by simpa using hlt),
      List.getD_eq_getElem _ _ hlt]
    simp
  · rw [List.getD_eq_default _ _ (by simpa using hge),
      List.getD_eq_default _ _ hge, h]

theorem cellAt_agePhase (g : Grid) (p : Nat × Nat) :
    cellAt (agePhase g) p = ageSlot (cellAt g p) := by
  unfold cellAt agePhase
  rw [getD_map_default (List.map ageSlot) g p.1 [] [] rfl,
    getD_map_default ageSlot _ p.2 none none rfl]

theorem isSome_ageSlot (oc : Option Cell) :
    (ageSlot oc).isSome = oc.isSome := by
  cases oc with
  | none => rfl
  | some c => by_cases h : c.alive <;> simp [ageSlot, h]

/-- Entries committed in phase 5 can only remove occupants, never add
or replace them. -/
theorem commit_fold_occupancy_mono (entries : DieMap) (st : TickState)
    (p : Nat × Nat) (c : Cell)
    (h : cellAt (entries.foldl commitEntry st).grid p = some c) :
    cellAt st.grid p = some c := by
  induction entries generalizing st with
  | nil => exact h
  | cons e rest ih =>
    have hstep := ih (commitEntry st e) h
    unfold commitEntry at hstep
    rcases hoc : cellAt st.grid e.1 with _ | cell
    · rwa [hoc] at hstep
    · rw [hoc] at hstep
      by_cases halive : cell.alive
      · simp only [halive, if_true] at hstep
        rw [cellAt_setCell] at hstep
        by_cases hcond : p = e.1 ∧ e.1.1 < st.grid.length ∧
            e.1.2 < (st.grid.getD e.1.1 []).length
        · rw [if_pos hcond] at hstep
          exact absurd hstep (by simp)
        · rwa [if_neg hcond] at hstep
      · simp only [halive, if_false] at hstep
        exact hstep

/-! ### DieMap lemmas -/

theorem Causes.add_not_isEmpty (cs : Causes) (c : Cause) :
    (cs.add c).isEmpty = false := by
  cases c <;> simp [Causes.add, Causes.isEmpty]

theorem DieMap.find?_addCause_self (m : DieMap) (p : Nat × Nat) (c : Cause) :
    (m.addCause p c).find? p =
      some (((m.find? p).getD Causes.empty).add c) := by
  induction m with
  | nil => simp [DieMap.addCause, DieMap.find?]
  | cons e rest ih =>
    by_cases h : e.1 = p
    · simp [DieMap.addCause, DieMap.find?, h]
    · simp [DieMap.addCause, DieMap.find?, h, ih]

theorem DieMap.find?_addCause_ne (m : DieMap) (p q : Nat × Nat) (c : Cause)
    (h : q ≠ p) : (m.addCause p c).find? q = m.find? q := by
  induction m with
  | nil =>
    simp only [DieMap.addCause, DieMap.find?]
    rw [if_neg (fun hpq => h hpq.symm)]
  | cons e rest ih =>
    simp only [DieMap.addCause]
    by_cases he : e.1 = p
    · rw [if_pos he]
      simp only [DieMap.find?]
      have hne : ¬(e.1 = q) := fun hq => h (by rw [← hq, he])
      rw [if_neg hne, if_neg hne]
    · rw [if_neg he]
      simp only [DieMap.find?]
      by_cases hq : e.1 = q
      · rw [if_pos hq, if_pos hq]
      · rw [if_neg hq, if_neg hq]
        exact ih

theorem DieMap.mem_keys_addCause (m : DieMap) (p q : Nat × Nat) (c : Cause) :
    q ∈ (m.addCause p c).keys ↔ q ∈ m.keys ∨ q = p := by
  induction m with
  | nil => simp [DieMap.addCause, DieMap.keys]
  | cons e rest ih =>
    simp only [DieMap.addCause]
    by_cases he : e.1 = p
    · rw [if_pos he]
      simp only [DieMap.keys, List.map_cons, List.mem_cons]
      constructor
      · exact fun hh => Or.inl hh
      · rintro (hh | hh)
        · exact hh
        · exact Or.inl (by rw [hh, ← he])
    · rw [if_neg he]
      simp only [DieMap.keys, List.map_cons, List.mem_cons]
      have ih' : q ∈ List.map Prod.fst (DieMap.addCause rest p c) ↔
          q ∈ List.map Prod.fst rest ∨ q = p := ih
      rw [ih']
      tauto

theorem DieMap.find?_eq_none_iff (m : DieMap) (p : Nat × Nat) :
    m.find? p = none ↔ p ∉ m.keys := by
  induction m with
  | nil => simp [DieMap.find?, DieMap.keys]
  | cons e rest ih =>
    simp only [DieMap.find?, DieMap.keys, List.map_cons, List.mem_cons]
    by_cases h : e.1 = p
    · simp [h]
    · rw [if_neg h, ih]
      show p ∉ DieMap.keys rest ↔ _
      constructor
      · intro hn hm
        rcases hm with hm | hm
        · exact h hm.symm
        · exact hn hm
      · intro hn
        exact fun hm => hn (Or.inr hm)

theorem DieMap.find?_isSome_of_mem (m : DieMap) (e : (Nat × Nat) × Causes)
    (h : e ∈ m) : (m.find? e.1).isSome := by
  induction m with
  | nil => simp at h
  | cons f rest ih =>
    simp only [DieMap.find?]
    by_cases hf : f.1 = e.1
    · rw [if_pos hf]
      simp
    · rw [if_neg hf]
      rcases List.mem_cons.mp h with he | hm
      · exact absurd (by rw [he]) hf
      · exact ih hm

/-- Every entry of a pending-death map built only by addCause from the
empty map carries at least one cause. -/
theorem DieMap.nonempty_causes_addCause (m : DieMap) (p : Nat × Nat)
    (c : Cause) (h : ∀ e ∈ m, e.2.isEmpty = false) :
    ∀ e ∈ m.addCause p c, e.2.isEmpty = false := by
  induction m with
  | nil =>
    intro e he
    simp only [DieMap.addCause] at he
    rcases List.mem_cons.mp he with he1 | he2
    · rw [he1]
      exact Causes.add_not_isEmpty _ _
    · simp at he2
  | cons f rest ih =>
    intro e he
    simp only [DieMap.addCause] at he
    by_cases hf : f.1 = p
    · rw [if_pos hf] at he
      rcases List.mem_cons.mp he with he1 | he2
      · rw [he1]
        exact Causes.add_not_isEmpty _ _
      · exact h e (List.mem_cons_of_mem f he2)
    · rw [if_neg hf] at he
      rcases List.mem_cons.mp he with he1 | he2
      · rw [he1]
        exact h f (List.mem_cons_self f rest)
      · exact ih (fun x hx => h x (List.mem_cons_of_mem f hx)) e he2

theorem DieMap.keys_nodup_addCause (m : DieMap) (p : Nat × Nat) (c : Cause)
    (h : m.keys.Nodup) : (m.addCause p c).keys.Nodup := by
  induction m with
  | nil => simp [DieMap.addCause, DieMap.keys]
  | cons e rest ih =>
    by_cases he : e.1 = p
    · have hval : DieMap.addCause (e :: rest) p c =
          (e.1, e.2.add c) :: rest := by
        simp only [DieMap.addCause]
        rw [if_pos he]
      rw [hval]
      have hg : DieMap.keys ((e.1, e.2.add c) :: rest) =
          e.1 :: DieMap.keys rest := rfl
      have hh : DieMap.keys (e :: rest) = e.1 :: DieMap.keys rest := rfl
      rw [hg]
      rw [hh] at h
      exact h
    · have hval : DieMap.addCause (e :: rest) p c =
          e :: DieMap.addCause rest p c := by
        simp only [DieMap.addCause]
        rw [if_neg he]
      rw [hval]
      have hg : DieMap.keys (e :: DieMap.addCause rest p c) =
          e.1 :: DieMap.keys (DieMap.addCause rest p c) := rfl
      have hh : DieMap.keys (e :: rest) = e.1 :: DieMap.keys rest := rfl
      rw [hg, List.nodup_cons]
      rw [hh, List.nodup_cons] at h
      refine ⟨?_, ih h.2⟩
      intro hmem
      rcases (DieMap.mem_keys_addCause rest p e.1 c).mp hmem with hin | heq
      · exact h.1 hin
      · exact he heq

/-! ### choose lemmas -/

theorem choose_mem (l : List (Nat × Nat)) (g : RNG) (h : l ≠ []) :
    (RNG.choose l g).1 ∈ l := by
  unfold RNG.choose
  have hlen : 0 < l.length := List.length_pos.mpr h
  have hj : g.next.1 % l.length < l.length := Nat.mod_lt _ hlen
  rw [List.getD_eq_getElem _ _ hj]
  exact List.getElem_mem hj

/-- Every index below the candidate count is realised by some RNG
state: the state i makes choose return the i-th candidate. -/
theorem choose_surjective (l : List (Nat × Nat)) (i : Nat)
    (hi : i < l.length) (hsmall : l.length ≤ 2 ^ 53) :
    (RNG.choose l ⟨i⟩).1 = l.getD i (0, 0) := by
  unfold RNG.choose RNG.next
  have h1 : i % 2 ^ 53 = i := Nat.mod_eq_of_lt (Nat.lt_of_lt_of_le hi hsmall)
  simp only [h1, Nat.mod_eq_of_lt hi]

/-! ### divisionVisit case analysis -/

/-- The exhaustive case analysis of one phase-3 visit, as the proofs
below consume it. -/
theorem divisionVisit_rec (cfg : Configuration) (s : TickState)
    (p : Nat × Nat) :
    divisionVisit cfg s p = s
    ∨ (∃ cell, cellAt s.grid p = some cell ∧ cell.alive = true ∧
        s.toDie.find? p = none ∧
        cfg.division_cooldown ≤ (cell.last_division : Int) ∧
        emptyNeighbors cfg s.grid p.1 p.2 = [] ∧
        divisionVisit cfg s p = { s with
          toDie := (handleOvercrowding cfg s.grid s.toDie s.rng p.1 p.2).1,
          rng := (handleOvercrowding cfg s.grid s.toDie s.rng p.1 p.2).2 })
    ∨ (∃ cell, cellAt s.grid p = some cell ∧ cell.alive = true ∧
        s.toDie.find? p = none ∧
        cfg.division_cooldown ≤ (cell.last_division : Int) ∧
        emptyNeighbors cfg s.grid p.1 p.2 ≠ [] ∧
        (s.rng.randomLt cfg.division_probability).1 = false ∧
        divisionVisit cfg s p =
          { s with rng := (s.rng.randomLt cfg.division_probability).2 })
    ∨ (∃ cell, cellAt s.grid p = some cell ∧ cell.alive = true ∧
        s.toDie.find? p = none ∧
        cfg.division_cooldown ≤ (cell.last_division : Int) ∧
        emptyNeighbors cfg s.grid p.1 p.2 ≠ [] ∧
        (s.rng.randomLt cfg.division_probability).1 = true ∧
        (RNG.choose (emptyNeighbors cfg s.grid p.1 p.2)
            (s.rng.randomLt cfg.division_probability).2).1 ∈
          emptyNeighbors cfg s.grid p.1 p.2 ∧
        divisionVisit cfg s p = { s with
          grid := setCell (setCell s.grid p
            (some { cell with
                divisions := cell.divisions + 1
                last_division := 0 }))
            (RNG.choose (emptyNeighbors cfg s.grid p.1 p.2)
              (s.rng.randomLt cfg.division_probability).2).1
            (some Cell.newborn)
          toDie := if cfg.division_limit ≤ ((cell.divisions + 1 : Nat) : Int)
            then s.toDie.addCause p Cause.division_limit else s.toDie
          births := s.births ++
            [((RNG.choose (emptyNeighbors cfg s.grid p.1 p.2)
                (s.rng.randomLt cfg.division_probability).2).1,
              Cell.newborn)]
          created := s.created + 1
          rng := (RNG.choose (emptyNeighbors cfg s.grid p.1 p.2)
              (s.rng.randomLt cfg.division_probability).2).2 }) := by
  rcases hoc : cellAt s.grid p with _ | cell
  · refine Or.inl ?_
    unfold divisionVisit
    rw [hoc]
  · by_cases halive : cell.alive = false
    · refine Or.inl ?_
      unfold divisionVisit
      rw [hoc]
      dsimp only
      rw [if_pos halive]
    · have halive' : cell.alive = true := by
        cases hb : cell.alive
        · exact absurd hb halive
        · rfl
      by_cases hdie : (s.toDie.find? p).isSome = true
      · refine Or.inl ?_
        unfold divisionVisit
        rw [hoc]
        dsimp only
        rw [if_neg halive, if_pos hdie]
      · have hdie' : s.toDie.find? p = none :=
          Option.not_isSome_iff_eq_none.mp hdie
        by_cases hcd : (cell.last_division : Int) < cfg.division_cooldown
        · refine Or.inl ?_
          unfold divisionVisit
          rw [hoc]
          dsimp only
          rw [if_neg halive, if_neg hdie, if_pos hcd]
        · have hcd' : cfg.division_cooldown ≤ (cell.last_division : Int) :=
            Int.not_lt.mp hcd
          by_cases hemp : emptyNeighbors cfg s.grid p.1 p.2 = []
          · refine Or.inr (Or.inl ⟨cell, rfl, halive', hdie', hcd', hemp, ?_⟩)
            unfold divisionVisit
            rw [hoc]
            dsimp only
            rw [if_neg halive, if_neg hdie, if_neg hcd, if_pos hemp]
          · by_cases hb : (s.rng.randomLt cfg.division_probability).1 = true
            · refine Or.inr (Or.inr (Or.inr ⟨cell, rfl, halive', hdie', hcd',
                hemp, hb, choose_mem _ _ hemp, ?_⟩))
              unfold divisionVisit
              rw [hoc]
              dsimp only
              rw [if_neg halive, if_neg hdie, if_neg hcd, if_neg hemp,
                if_pos hb]
            · have hb' : (s.rng.randomLt cfg.division_probability).1 = false := by
                cases hbb : (s.rng.randomLt cfg.division_probability).1
                · rfl
                · exact absurd hbb hb
              refine Or.inr (Or.inr (Or.inl ⟨cell, rfl, halive', hdie', hcd',
                hemp, hb', ?_⟩))
              unfold divisionVisit
              rw [hoc]
              dsimp only
              rw [if_neg halive, if_neg hdie, if_neg hcd, if_neg hemp,
                if_neg hb]

/-! ### Validation -/

theorem validate_ok_iff (cfg : Configuration) :
    cfg.validate = Except.ok () ↔ validConfig cfg := by
  unfold Configuration.validate validConfig
  constructor
  · intro h
    split_ifs at h with h1 h2 h3 h4 h5 h6 h7 h8 h9 <;>
      first
        | exact Except.noConfusion h
        | exact ⟨by omega, by omega, by omega, by omega, by omega, by omega,
            h7, by omega, by omega⟩
  · rintro ⟨c1, c2, c3, c4, c5, c6, c7, c8, c9⟩
    rw [if_neg (by omega), if_neg (by omega), if_neg (by omega),
      if_neg (by omega), if_neg (by omega), if_neg (by omega),
      if_neg (not_not_intro c7), if_neg (by omega), if_neg (by omega)]

theorem init_ok_of_valid (cfg : Configuration) (g : RNG)
    (h : validConfig cfg) :
    Simulation.init cfg g = Except.ok (Simulation.build cfg g) := by
  unfold Simulation.init
  rw [(validate_ok_iff cfg).mpr h]

theorem init_error_of_invalid (cfg : Configuration) (g : RNG)
    (h : ¬ validConfig cfg) :
    ∃ e, Simulation.init cfg g = Except.error e := by
  cases hval : cfg.validate with
  | error e =>
    refine ⟨e, ?_⟩
    unfold Simulation.init
    rw [hval]
  | ok u =>
    cases u
    exact absurd ((validate_ok_iff cfg).mp hval) h

theorem init_ok_elim (cfg : Configuration) (g : RNG) (sim : Simulation)
    (h : Simulation.init cfg g = Except.ok sim) :
    validConfig cfg ∧ sim = Simulation.build cfg g := by
  have hval : validConfig cfg := by
    cases hv : cfg.validate with
    | error e =>
      unfold Simulation.init at h
      rw [hv] at h
      exact Except.noConfusion h
    | ok u =>
      cases u
      exact (validate_ok_iff cfg).mp hv
  refine ⟨hval, ?_⟩
  rw [init_ok_of_valid cfg g hval] at h
  injection h with he
  exact he.symm

/-! ### Seeding -/

theorem seedLoop_wf (cfg : Configuration) :
    ∀ (n : Nat) (ps : List (Nat × Nat)) (grid : Grid) (cr : Nat),
      gridWF cfg grid → gridWF cfg (seedLoop n ps grid cr).1
  | 0, _, _, _, h => h
  | n + 1, ps, grid, cr, h => by
    unfold seedLoop
    by_cases he : ps.isEmpty
    · rwa [if_pos he]
    · rw [if_neg he]
      exact seedLoop_wf cfg n _ _ _ (gridWF_setCell cfg grid _ _ h)

theorem seedLoop_spec :
    ∀ (n : Nat) (ps : List (Nat × Nat)) (grid : Grid) (cr : Nat),
      ps.Nodup →
      (∀ p ∈ ps, p.1 < grid.length ∧ p.2 < (grid.getD p.1 []).length ∧
        cellAt grid p = none) →
      n ≤ ps.length →
      occupiedCount (seedLoop n ps grid cr).1 = occupiedCount grid + n ∧
      (seedLoop n ps grid cr).2.1 = cr + n ∧
      (∀ q c, cellAt (seedLoop n ps grid cr).1 q = some c →
        cellAt grid q = some c ∨ c = Cell.newborn)
  | 0, ps, grid, cr, _, _, _ => by
    refine ⟨by simp [seedLoop], by simp [seedLoop], ?_⟩
    intro q c h
    exact Or.inl h
  | n + 1, ps, grid, cr, hnd, hfresh, hlen => by
    have hne : ps ≠ [] := by
      intro he
      rw [he] at hlen
      simp at hlen
    have hemp : ps.isEmpty = false := by
      rw [← Bool.not_eq_true]
      intro he
      exact hne (List.isEmpty_iff.mp he)
    unfold seedLoop
    rw [hemp]
    simp only [Bool.false_eq_true, if_false]
    set lastp := ps.getLastD (0, 0) with hlast
    have hmem : lastp ∈ ps := getLastD_mem ps (0, 0) hne
    obtain ⟨hb1, hb2, hb3⟩ := hfresh lastp hmem
    set grid' := setCell grid lastp (some Cell.newborn) with hgrid'
    have hnd' : ps.dropLast.Nodup := (List.dropLast_sublist ps).nodup hnd
    have hnotmem : lastp ∉ ps.dropLast := getLastD_not_mem_dropLast ps _ hne hnd
    have hfresh' : ∀ p ∈ ps.dropLast, p.1 < grid'.length ∧
        p.2 < (grid'.getD p.1 []).length ∧ cellAt grid' p = none := by
      intro p hp
      have hpps : p ∈ ps := List.mem_of_mem_dropLast hp
      obtain ⟨g1, g2, g3⟩ := hfresh p hpps
      refine ⟨by rwa [hgrid', length_setCell], by rwa [hgrid', rowLen_setCell], ?_⟩
      rw [hgrid', cellAt_setCell_ne]
      · exact g3
      · intro he
        exact hnotmem (he ▸ hp)
    have hlen' : n ≤ ps.dropLast.length := by
      rw [List.length_dropLast]
      omega
    obtain ⟨ih1, ih2, ih3⟩ := seedLoop_spec n ps.dropLast grid' (cr + 1)
      hnd' hfresh' hlen'
    refine ⟨?_, by omega, ?_⟩
    · rw [ih1, hgrid', occupiedCount_setCell_some grid lastp Cell.newborn hb1 hb2 hb3]
      omega
    · intro q c h
      rcases ih3 q c h with hold | hnew
      · rw [hgrid', cellAt_setCell] at hold
        by_cases hcond : q = lastp ∧ lastp.1 < grid.length ∧
            lastp.2 < (grid.getD lastp.1 []).length
        · rw [if_pos hcond] at hold
          exact Or.inr (by injection hold.symm)
        · rw [if_neg hcond] at hold
          exact Or.inl hold
      · exact Or.inr hnew

theorem build_grid_facts (cfg : Configuration) (g : RNG)
    (h : validConfig cfg) :
    occupiedCount (Simulation.build cfg g).grid = cfg.initial_population.toNat ∧
    (Simulation.build cfg g).total_cells_created = cfg.initial_population.toNat ∧
    (∀ q c, cellAt (Simulation.build cfg g).grid q = some c →
      c = Cell.newborn) ∧
    gridWF cfg (Simulation.build cfg g).grid := by
  obtain ⟨c1, c2, c3, c4, c5, c6, c7, c8, c9⟩ := h
  have hr0 : (0 : Int) ≤ cfg.grid_rows := by omega
  have hc0 : (0 : Int) ≤ cfg.grid_cols := by omega
  have hsz : ((cfg.grid_rows.toNat * cfg.grid_cols.toNat : Nat) : Int) =
      cfg.grid_rows * cfg.grid_cols := by
    push_cast [Int.toNat_of_nonneg hr0, Int.toNat_of_nonneg hc0]
    ring
  set positions := rowMajor cfg.grid_rows.toNat cfg.grid_cols.toNat with hpos
  set shuffled := (shuffle positions g).1 with hshuf
  have hperm : shuffled.Perm positions := shuffle_perm positions g
  have hnd : shuffled.Nodup :=
    (hperm.symm).nodup (nodup_rowMajor _ _)
  have hwfe : gridWF cfg (emptyGrid cfg) := gridWF_emptyGrid cfg
  have hfresh : ∀ p ∈ shuffled, p.1 < (emptyGrid cfg).length ∧
      p.2 < ((emptyGrid cfg).getD p.1 []).length ∧
      cellAt (emptyGrid cfg) p = none := by
    intro p hp
    have hp' : p ∈ positions := hperm.mem_iff.mp hp
    have hb := (mem_rowMajor _ _ p).mp hp'
    refine ⟨by rw [hwfe.1]; exact hb.1, ?_, cellAt_emptyGrid cfg p⟩
    rw [gridWF_rowLen cfg _ hwfe p.1 (by rw [hwfe.1]; exact hb.1)]
    exact hb.2
  have hlen : cfg.initial_population.toNat ≤ shuffled.length := by
    rw [hperm.length_eq, hpos, length_rowMajor]
    have := Int.toNat_le_toNat c4
    omega
  obtain ⟨s1, s2, s3⟩ := seedLoop_spec cfg.initial_population.toNat shuffled
    (emptyGrid cfg) 0 hnd hfresh hlen
  refine ⟨?_, ?_, ?_, ?_⟩
  · show occupiedCount (seedLoop _ _ _ _).1 = _
    rw [s1, occupiedCount_emptyGrid]
    omega
  · show (seedLoop _ _ _ _).2.1 = _
    rw [s2]
    omega
  · intro q c hq
    rcases s3 q c hq with hold | hnew
    · rw [cellAt_emptyGrid] at hold
      exact Option.noConfusion hold
    · exact hnew
  · exact seedLoop_wf cfg _ _ _ _ hwfe

/-! ### Overcrowding resolution -/

theorem foldl_max_le (l : List Nat) (a : Nat) :
    (∀ x ∈ l, x ≤ l.foldl Nat.max a) ∧ a ≤ l.foldl Nat.max a := by
  induction l generalizing a with
  | nil => exact ⟨by simp, Nat.le_refl a⟩
  | cons b t ih =>
    obtain ⟨h1, h2⟩ := ih (Nat.max a b)
    refine ⟨?_, ?_⟩
    · intro x hx
      rcases List.mem_cons.mp hx with hb | ht
      · rw [hb]
        exact Nat.le_trans (Nat.le_max_right a b) h2
      · exact h1 x ht
    · exact Nat.le_trans (Nat.le_max_left a b) h2

theorem foldl_max_mem (l : List Nat) (a : Nat) :
    l.foldl Nat.max a = a ∨ l.foldl Nat.max a ∈ l := by
  induction l generalizing a with
  | nil => exact Or.inl rfl
  | cons b t ih =>
    rcases ih (Nat.max a b) with h | h
    · rcases Nat.le_total b a with hab | hab
      · have hm : Nat.max a b = a := Nat.max_eq_left hab
        rw [List.foldl_cons, h, hm]
        exact Or.inl rfl
      · have hm : Nat.max a b = b := Nat.max_eq_right hab
        rw [List.foldl_cons, h, hm]
        exact Or.inr (List.mem_cons_self b t)
    · exact Or.inr (List.mem_cons_of_mem b h)

theorem maxAge_ge (cells : List ((Nat × Nat) × Nat)) (pr : (Nat × Nat) × Nat)
    (h : pr ∈ cells) : pr.2 ≤ maxAge cells :=
  (foldl_max_le (cells.map Prod.snd) 0).1 pr.2 (List.mem_map_of_mem Prod.snd h)

theorem regionCells_mem_elim (grid : Grid) (coords : List (Nat × Nat))
    (pr : (Nat × Nat) × Nat) (h : pr ∈ regionCells grid coords) :
    pr.1 ∈ coords ∧ ∃ c, cellAt grid pr.1 = some c ∧ c.alive = true ∧
      c.age = pr.2 := by
  unfold regionCells at h
  obtain ⟨q, hq, hf⟩ := List.mem_filterMap.mp h
  rcases hoc : cellAt grid q with _ | c
  · rw [hoc] at hf
    exact Option.noConfusion hf
  · rw [hoc] at hf
    dsimp only at hf
    by_cases halive : c.alive = true
    · rw [if_pos halive] at hf
      injection hf with he
      rw [← he]
      exact ⟨hq, c, hoc, halive, rfl⟩
    · rw [if_neg halive] at hf
      exact Option.noConfusion hf

theorem regionCells_mem_intro (grid : Grid) (coords : List (Nat × Nat))
    (q : Nat × Nat) (c : Cell) (hq : q ∈ coords)
    (hoc : cellAt grid q = some c) (halive : c.alive = true) :
    (q, c.age) ∈ regionCells grid coords := by
  unfold regionCells
  refine List.mem_filterMap.mpr ⟨q, hq, ?_⟩
  rw [hoc]
  dsimp only
  rw [if_pos halive]

theorem oldestPatches_mem_elim (cells : List ((Nat × Nat) × Nat))
    (t : Nat × Nat) (h : t ∈ oldestPatches cells) :
    (t, maxAge cells) ∈ cells := by
  unfold oldestPatches at h
  obtain ⟨e, he, hf⟩ := List.mem_filterMap.mp h
  by_cases hmx : e.2 = maxAge cells
  · rw [if_pos hmx] at hf
    injection hf with ht
    rw [← ht, ← hmx]
    exact he
  · rw [if_neg hmx] at hf
    exact Option.noConfusion hf

theorem oldestPatches_ne_nil (cells : List ((Nat × Nat) × Nat))
    (h : cells ≠ []) : oldestPatches cells ≠ [] := by
  have hmem : ∃ pr ∈ cells, pr.2 = maxAge cells := by
    rcases foldl_max_mem (cells.map Prod.snd) 0 with hm | hm
    · cases cells with
      | nil => exact absurd rfl h
      | cons pr rest =>
        refine ⟨pr, List.mem_cons_self pr rest, ?_⟩
        have hle := maxAge_ge (pr :: rest) pr (List.mem_cons_self pr rest)
        unfold maxAge at hle ⊢
        omega
    · obtain ⟨pr, hpr, hval⟩ := List.mem_map.mp hm
      exact ⟨pr, hpr, hval⟩
  obtain ⟨pr, hpr, hval⟩ := hmem
  intro hnil
  have : pr.1 ∈ oldestPatches cells := by
    unfold oldestPatches
    refine List.mem_filterMap.mpr ⟨pr, hpr, ?_⟩
    rw [if_pos hval]
  rw [hnil] at this
  simp at this

theorem regionCells_length_le (grid : Grid) (coords : List (Nat × Nat)) :
    (regionCells grid coords).length ≤ coords.length :=
  List.length_filterMap_le _ _

theorem oldestPatches_length_le (cells : List ((Nat × Nat) × Nat)) :
    (oldestPatches cells).length ≤ cells.length :=
  List.length_filterMap_le _ _

theorem regionCoords_length (cfg : Configuration) (r c : Nat) :
    (regionCoords cfg r c).length = 9 := by
  unfold regionCoords regionOffsets
  simp

/-- The full characterisation of one overcrowding resolution on a
region with at least one alive occupant. -/
theorem handleOvercrowding_spec (cfg : Configuration) (grid : Grid)
    (m : DieMap) (g : RNG) (r c : Nat)
    (h : regionCells grid (regionCoords cfg r c) ≠ []) :
    ∃ t, t ∈ oldestPatches (regionCells grid (regionCoords cfg r c)) ∧
      (handleOvercrowding cfg grid m g r c).1 =
        m.addCause t Cause.overcrowding ∧
      (handleOvercrowding cfg grid m g r c).1.find? t =
        some (((m.find? t).getD Causes.empty).add Cause.overcrowding) ∧
      (∀ q, q ≠ t → (handleOvercrowding cfg grid m g r c).1.find? q =
        m.find? q) := by
  have hne := oldestPatches_ne_nil _ h
  refine ⟨(RNG.choose (oldestPatches (regionCells grid
    (regionCoords cfg r c))) g).1, choose_mem _ _ hne, ?_, ?_, ?_⟩
  · unfold handleOvercrowding
    rw [if_neg h]
  · unfold handleOvercrowding
    rw [if_neg h]
    exact DieMap.find?_addCause_self m _ _
  · intro q hq
    unfold handleOvercrowding
    rw [if_neg h]
    exact DieMap.find?_addCause_ne m _ q _ hq

theorem handleOvercrowding_toDie (cfg : Configuration) (grid : Grid)
    (m : DieMap) (g : RNG) (r c : Nat) :
    (handleOvercrowding cfg grid m g r c).1 = m ∨
    ∃ t, (handleOvercrowding cfg grid m g r c).1 =
      m.addCause t Cause.overcrowding := by
  unfold handleOvercrowding
  by_cases h : regionCells grid (regionCoords cfg r c) = []
  · rw [if_pos h]
    exact Or.inl rfl
  · rw [if_neg h]
    exact Or.inr ⟨_, rfl⟩

/-- A blocked eligible divider invokes overcrowding resolution
immediately, with no other state change. -/
theorem divisionVisit_overcrowding (cfg : Configuration) (s : TickState)
    (p : Nat × Nat) (cell : Cell) (hoc : cellAt s.grid p = some cell)
    (halive : cell.alive = true) (hdie : s.toDie.find? p = none)
    (hcd : cfg.division_cooldown ≤ (cell.last_division : Int))
    (hemp : emptyNeighbors cfg s.grid p.1 p.2 = []) :
    divisionVisit cfg s p = { s with
      toDie := (handleOvercrowding cfg s.grid s.toDie s.rng p.1 p.2).1
      rng := (handleOvercrowding cfg s.grid s.toDie s.rng p.1 p.2).2 } := by
  unfold divisionVisit
  rw [hoc]
  dsimp only
  rw [if_neg (by rw [halive]; exact fun hf => Bool.noConfusion hf),
    if_neg (by rw [hdie]; simp),
    if_neg (Int.not_lt.mpr hcd), if_pos hemp]

/-! ### Liveness of grid occupants -/

/-- Every Cell present on the Grid is alive: the "no dead-but-present"
invariant. -/
def allAlive (grid : Grid) : Prop :=
  ∀ p c, cellAt grid p = some c → c.alive = true

theorem cellAt_some_bounds (g : Grid) (p : Nat × Nat) (c : Cell)
    (h : cellAt g p = some c) :
    p.1 < g.length ∧ p.2 < (g.getD p.1 []).length := by
  constructor
  · by_contra hb
    rw [cellAt_oob g p (Nat.le_of_not_lt hb)] at h
    exact Option.noConfusion h
  · by_contra hb
    rw [cellAt_oob_col g p (Nat.le_of_not_lt hb)] at h
    exact Option.noConfusion h

/-- The two closed forms of one commit entry. -/
theorem commitEntry_kill (st : TickState) (e : (Nat × Nat) × Causes)
    (c : Cell) (hc : cellAt st.grid e.1 = some c) (halive : c.alive = true) :
    commitEntry st e = { st with
      grid := setCell st.grid e.1 none
      deaths := st.deaths + 1
      byAge := st.byAge + (if e.2.age then 1 else 0)
      byDivisionLimit :=
        st.byDivisionLimit + (if e.2.division_limit then 1 else 0)
      byOvercrowding :=
        st.byOvercrowding + (if e.2.overcrowding then 1 else 0) } := by
  unfold commitEntry
  split
  · rename_i heq
    rw [hc] at heq
    exact Option.noConfusion heq
  · rename_i cell heq
    rw [hc] at heq
    injection heq with he
    subst he
    rw [if_pos halive]

theorem commitEntry_skip (st : TickState) (e : (Nat × Nat) × Causes)
    (h : ∀ c, cellAt st.grid e.1 = some c → c.alive = false) :
    commitEntry st e = st := by
  unfold commitEntry
  split
  · rfl
  · rename_i cell heq
    rw [if_neg (by rw [h cell heq]; exact Bool.false_ne_true)]

theorem commitEntry_cellAt_ne (st : TickState) (e : (Nat × Nat) × Causes)
    (p : Nat × Nat) (h : p ≠ e.1) :
    cellAt (commitEntry st e).grid p = cellAt st.grid p := by
  rcases hoc : cellAt st.grid e.1 with _ | cell
  · rw [commitEntry_skip st e (by intro c hc; rw [hoc] at hc; exact Option.noConfusion hc)]
  · by_cases halive : cell.alive = true
    · rw [commitEntry_kill st e cell hoc halive]
      exact cellAt_setCell_ne _ _ _ _ h
    · rw [commitEntry_skip st e (by
        intro c hc
        rw [hoc] at hc
        injection hc with he
        rw [← he]
        cases hb : cell.alive
        · rfl
        · exact absurd hb halive)]

theorem commit_fold_none (entries : DieMap) (st : TickState)
    (p : Nat × Nat) (h : cellAt st.grid p = none) :
    cellAt (entries.foldl commitEntry st).grid p = none := by
  rcases hr : cellAt (entries.foldl commitEntry st).grid p with _ | c
  · rfl
  · have := commit_fold_occupancy_mono entries st p c hr
    rw [h] at this
    exact Option.noConfusion this

/-- An entry of the pending-death map whose Patch still holds an alive
Cell is removed from the Grid by the commit fold. -/
theorem commit_removes (entries : DieMap) (st : TickState) (p : Nat × Nat)
    (causes : Causes) (c : Cell) (hmem : (p, causes) ∈ entries)
    (hc : cellAt st.grid p = some c) (halive : c.alive = true) :
    cellAt (entries.foldl commitEntry st).grid p = none := by
  induction entries generalizing st c with
  | nil => simp at hmem
  | cons e rest ih =>
    show cellAt (rest.foldl commitEntry (commitEntry st e)).grid p = none
    by_cases hep : e.1 = p
    · have hc' : cellAt st.grid e.1 = some c := by rw [hep]; exact hc
      have hkill : cellAt (commitEntry st e).grid p = none := by
        rw [commitEntry_kill st e c hc' halive, hep]
        obtain ⟨hb1, hb2⟩ := cellAt_some_bounds st.grid p c hc
        exact cellAt_setCell_self _ _ _ hb1 hb2
      exact commit_fold_none rest _ p hkill
    · have hne : cellAt (commitEntry st e).grid p = cellAt st.grid p :=
        commitEntry_cellAt_ne st e p (fun hq => hep hq.symm)
      have hmem' : (p, causes) ∈ rest := by
        rcases List.mem_cons.mp hmem with he | hm
        · exact absurd (congrArg Prod.fst he.symm) hep
        · exact hm
      exact ih (commitEntry st e) c hmem' (hne.trans hc) halive

theorem allAlive_agePhase (g : Grid) (h : allAlive g) :
    allAlive (agePhase g) := by
  intro p c hc
  rw [cellAt_agePhase] at hc
  rcases hoc : cellAt g p with _ | c0
  · rw [hoc] at hc
    exact Option.noConfusion hc
  · rw [hoc] at hc
    have h0 := h p c0 hoc
    rw [show ageSlot (some c0) = if c0.alive then some c0.tick else some c0
      from rfl, if_pos h0] at hc
    injection hc with hcc
    rw [← hcc]
    exact h0

theorem allAlive_divisionVisit (cfg : Configuration) (s : TickState)
    (p : Nat × Nat) (h : allAlive s.grid) :
    allAlive (divisionVisit cfg s p).grid := by
  rcases divisionVisit_rec cfg s p with heq |
    ⟨cell, hoc, halive, hdie, hcd, hemp, heq⟩ |
    ⟨cell, hoc, halive, hdie, hcd, hemp, hb, heq⟩ |
    ⟨cell, hoc, halive, hdie, hcd, hemp, hb, htmem, heq⟩
  · rw [heq]; exact h
  · rw [heq]; exact h
  · rw [heq]; exact h
  · rw [heq]
    intro q c hq
    simp only at hq
    rw [cellAt_setCell] at hq
    split_ifs at hq with h1
    · injection hq with hc
      rw [← hc]
      rfl
    · rw [cellAt_setCell] at hq
      split_ifs at hq with h2
      · injection hq with hc
        rw [← hc]
        exact halive
      · exact h q c hq

theorem allAlive_divisionFold (cfg : Configuration) (l : List (Nat × Nat))
    (s : TickState) (h : allAlive s.grid) :
    allAlive (l.foldl (divisionVisit cfg) s).grid := by
  induction l generalizing s with
  | nil => exact h
  | cons q rest ih => exact ih _ (allAlive_divisionVisit cfg s q h)

theorem allAlive_commitFold (entries : DieMap) (st : TickState)
    (h : allAlive st.grid) :
    allAlive (entries.foldl commitEntry st).grid := by
  intro p c hc
  exact h p c (commit_fold_occupancy_mono entries st p c hc)

theorem allAlive_tick (sim : Simulation) (h : allAlive sim.grid) :
    allAlive sim.tick.grid := by
  have h1 : allAlive (agePhase sim.grid) := allAlive_agePhase _ h
  have h2 : allAlive sim.tickData.grid := by
    show allAlive ((rowMajor _ _).foldl (divisionVisit sim.config) _).grid
    exact allAlive_divisionFold _ _ _ h1
  show allAlive ((sim.tickData.toDie.foldl commitEntry sim.tickData).grid)
  exact allAlive_commitFold _ _ h2

theorem allAlive_init (cfg : Configuration) (g : RNG) (sim : Simulation)
    (h : Simulation.init cfg g = Except.ok sim) : allAlive sim.grid := by
  obtain ⟨hval, hsim⟩ := init_ok_elim cfg g sim h
  subst hsim
  intro p c hc
  have h3 := (build_grid_facts cfg g hval).2.2.1 p c hc
  rw [h3]
  rfl

/-! ### Division eligibility -/

/-- The guard the phase-3 code actually evaluates before computing
neighbors (simulation.py lines 119-126): the patch holds a cell, the
cell is alive, its patch is not in the pending-death map, and its
cooldown has elapsed. -/
def divisionGuard (cfg : Configuration) (s : TickState) (p : Nat × Nat) :
    Bool :=
  match cellAt s.grid p with
  | none => false
  | some cell =>
    cell.alive && !(s.toDie.find? p).isSome &&
      decide (cfg.division_cooldown ≤ (cell.last_division : Int))

/-- The invariant connecting the code's guard to the spec's eligibility
condition: every alive cell that has exhausted its division limit is
already in the pending-death map. -/
def divisionInv (cfg : Configuration) (s : TickState) : Prop :=
  ∀ q cq, cellAt s.grid q = some cq → cq.alive = true →
    cfg.division_limit ≤ (cq.divisions : Int) →
    (s.toDie.find? q).isSome = true

/-- A cell failing the guard is skipped outright: no state change and
no random draw. -/
theorem divisionVisit_skip (cfg : Configuration) (s : TickState)
    (p : Nat × Nat) (h : divisionGuard cfg s p = false) :
    divisionVisit cfg s p = s := by
  unfold divisionGuard at h
  rcases hoc : cellAt s.grid p with _ | cell
  · unfold divisionVisit
    rw [hoc]
  · rw [hoc] at h
    dsimp only at h
    by_cases halive : cell.alive = false
    · unfold divisionVisit
      rw [hoc]
      dsimp only
      rw [if_pos halive]
    · have halive' : cell.alive = true := by
        cases hb : cell.alive
        · exact absurd hb halive
        · rfl
      by_cases hdie : (s.toDie.find? p).isSome = true
      · unfold divisionVisit
        rw [hoc]
        dsimp only
        rw [if_neg halive, if_pos hdie]
      · have hdie' : (s.toDie.find? p).isSome = false := by
          cases hb : (s.toDie.find? p).isSome
          · rfl
          · exact absurd hb hdie
        rw [halive', hdie'] at h
        simp only [Bool.not_false, Bool.true_and, Bool.and_eq_true,
          decide_eq_true_eq] at h
        have hcd : (cell.last_division : Int) < cfg.division_cooldown := by
          rcases Int.lt_or_le (cell.last_division : Int)
            cfg.division_cooldown with hlt | hle
          · exact hlt
          · rw [decide_eq_true hle] at h
            exact absurd h (by simp)
        unfold divisionVisit
        rw [hoc]
        dsimp only
        rw [if_neg halive, if_neg hdie, if_pos hcd]

theorem DieMap.find?_isSome_addCause (m : DieMap) (p q : Nat × Nat)
    (c : Cause) (h : (m.find? q).isSome = true) :
    ((m.addCause p c).find? q).isSome = true := by
  by_cases hq : q = p
  · subst hq
    rw [DieMap.find?_addCause_self]
    rfl
  · rw [DieMap.find?_addCause_ne m p q c hq]
    exact h

theorem DieMap.find?_isSome_addCause_self (m : DieMap) (p : Nat × Nat)
    (c : Cause) : ((m.addCause p c).find? p).isSome = true := by
  rw [DieMap.find?_addCause_self]
  rfl

/-- The guard is equivalent to the spec's eligibility condition under
the invariant. -/
theorem divisionGuard_iff (cfg : Configuration) (s : TickState)
    (p : Nat × Nat) (cell : Cell) (hinv : divisionInv cfg s)
    (hoc : cellAt s.grid p = some cell) (halive : cell.alive = true) :
    divisionGuard cfg s p = true ↔
      ((cell.divisions : Int) < cfg.division_limit ∧
       cfg.division_cooldown ≤ (cell.last_division : Int) ∧
       s.toDie.find? p = none) := by
  unfold divisionGuard
  rw [hoc]
  dsimp only
  rw [halive]
  constructor
  · intro h
    simp only [Bool.true_and, Bool.and_eq_true, Bool.not_eq_true',
      decide_eq_true_eq] at h
    obtain ⟨hns, hcd⟩ := h
    have hnone : s.toDie.find? p = none :=
      Option.not_isSome_iff_eq_none.mp (by rw [hns]; exact Bool.false_ne_true)
    refine ⟨?_, hcd, hnone⟩
    by_contra hge
    push_neg at hge
    have := hinv p cell hoc halive hge
    rw [hns] at this
    exact Bool.noConfusion this
  · rintro ⟨hdl, hcd, hnone⟩
    simp only [Bool.true_and, Bool.and_eq_true, Bool.not_eq_true',
      decide_eq_true_eq]
    exact ⟨by rw [hnone]; rfl, hcd⟩

theorem deathScanStep_find_mono (cfg : Configuration) (grid : Grid)
    (m : DieMap) (p q : Nat × Nat) (h : (m.find? q).isSome = true) :
    ((deathScanStep cfg grid m p).find? q).isSome = true := by
  unfold deathScanStep
  rcases hoc : cellAt grid p with _ | c
  · exact h
  · dsimp only
    by_cases halive : c.alive = true
    · rw [if_pos halive]
      by_cases hage : (c.age : Int) ≥ cfg.age_limit <;>
        by_cases hdiv : (c.divisions : Int) ≥ cfg.division_limit
      · rw [if_pos hage, if_pos hdiv]
        exact DieMap.find?_isSome_addCause _ _ _ _
          (DieMap.find?_isSome_addCause _ _ _ _ h)
      · rw [if_pos hage, if_neg hdiv]
        exact DieMap.find?_isSome_addCause _ _ _ _ h
      · rw [if_neg hage, if_pos hdiv]
        exact DieMap.find?_isSome_addCause _ _ _ _ h
      · rw [if_neg hage, if_neg hdiv]
        exact h
    · rw [if_neg halive]
      exact h

theorem deathScanStep_find_self (cfg : Configuration) (grid : Grid)
    (m : DieMap) (q : Nat × Nat) (cq : Cell)
    (hoc : cellAt grid q = some cq) (halive : cq.alive = true)
    (hdiv : cfg.division_limit ≤ (cq.divisions : Int)) :
    ((deathScanStep cfg grid m q).find? q).isSome = true := by
  unfold deathScanStep
  rw [hoc]
  dsimp only
  rw [if_pos halive, if_pos hdiv]
  exact DieMap.find?_isSome_addCause_self _ _ _

theorem deathScan_fold_mono (cfg : Configuration) (grid : Grid)
    (l : List (Nat × Nat)) (m : DieMap) (q : Nat × Nat)
    (h : (m.find? q).isSome = true) :
    ((l.foldl (deathScanStep cfg grid) m).find? q).isSome = true := by
  induction l generalizing m with
  | nil => exact h
  | cons x rest ih => exact ih _ (deathScanStep_find_mono cfg grid m x q h)

/-- Phase 2 tags every alive cell that has exhausted its division
limit. -/
theorem deathScan_complete (cfg : Configuration) (grid : Grid) (m : DieMap)
    (hwf : gridWF cfg grid) (q : Nat × Nat) (cq : Cell)
    (hoc : cellAt grid q = some cq) (halive : cq.alive = true)
    (hdiv : cfg.division_limit ≤ (cq.divisions : Int)) :
    ((deathScan cfg grid m).find? q).isSome = true := by
  obtain ⟨hb1, hb2⟩ := cellAt_some_bounds grid q cq hoc
  have hq : q ∈ rowMajor cfg.grid_rows.toNat cfg.grid_cols.toNat := by
    rw [mem_rowMajor]
    constructor
    · rw [← hwf.1]
      exact hb1
    · rw [← gridWF_rowLen cfg grid hwf q.1 hb1]
      exact hb2
  obtain ⟨l1, l2, hsplit⟩ := List.append_of_mem hq
  unfold deathScan
  rw [hsplit, List.foldl_append, List.foldl_cons]
  exact deathScan_fold_mono cfg grid l2 _ q
    (deathScanStep_find_self cfg grid _ q cq hoc halive hdiv)

theorem gridWF_agePhase (cfg : Configuration) (grid : Grid)
    (h : gridWF cfg grid) : gridWF cfg (agePhase grid) := by
  constructor
  · unfold agePhase
    rw [List.length_map]
    exact h.1
  · intro row hrow
    unfold agePhase at hrow
    obtain ⟨row0, hrow0, hmap⟩ := List.mem_map.mp hrow
    rw [← hmap, List.length_map]
    exact h.2 row0 hrow0

theorem divisionInv_start (sim : Simulation)
    (hwf : gridWF sim.config sim.grid) :
    divisionInv sim.config sim.tickDataStart := by
  intro q cq hoc halive hdiv
  exact deathScan_complete sim.config (agePhase sim.grid) []
    (gridWF_agePhase _ _ hwf) q cq hoc halive hdiv

/-- One phase-3 visit preserves the invariant (division_limit being at
least 1, the newborn cannot have exhausted it). -/
theorem divisionInv_visit (cfg : Configuration) (s : TickState)
    (p : Nat × Nat) (hlim : 1 ≤ cfg.division_limit)
    (h : divisionInv cfg s) : divisionInv cfg (divisionVisit cfg s p) := by
  rcases divisionVisit_rec cfg s p with heq |
    ⟨cell, hoc, halive, hdie, hcd, hemp, heq⟩ |
    ⟨cell, hoc, halive, hdie, hcd, hemp, hb, heq⟩ |
    ⟨cell, hoc, halive, hdie, hcd, hemp, hb, htmem, heq⟩
  · rw [heq]; exact h
  · rw [heq]
    intro q cq hq halq hdivq
    show ((handleOvercrowding cfg s.grid s.toDie s.rng p.1 p.2).1.find? q).isSome
      = true
    rcases handleOvercrowding_toDie cfg s.grid s.toDie s.rng p.1 p.2 with
      hh | ⟨t, hh⟩
    · rw [hh]
      exact h q cq hq halq hdivq
    · rw [hh]
      exact DieMap.find?_isSome_addCause _ _ _ _ (h q cq hq halq hdivq)
  · rw [heq]
    exact h
  · rw [heq]
    intro q cq hq halq hdivq
    simp only at hq hdivq halq ⊢
    rw [cellAt_setCell] at hq
    split_ifs at hq with h1
    · injection hq with hcq
      rw [← hcq] at hdivq
      have hz : ((Cell.newborn.divisions : Nat) : Int) = 0 := rfl
      rw [hz] at hdivq
      omega
    · rw [cellAt_setCell] at hq
      split_ifs at hq with h2
      · injection hq with hcq
        have hdv : cfg.division_limit ≤ ((cell.divisions + 1 : Nat) : Int) := by
          rw [← hcq] at hdivq
          exact_mod_cast hdivq
        rw [if_pos hdv, h2.1]
        exact DieMap.find?_isSome_addCause_self _ _ _
      · have hbase := h q cq hq halq hdivq
        by_cases hdv : cfg.division_limit ≤ ((cell.divisions + 1 : Nat) : Int)
        · rw [if_pos hdv]
          exact DieMap.find?_isSome_addCause _ _ _ _ hbase
        · rw [if_neg hdv]
          exact hbase

/-! ### Commit accounting -/

/-- Whether the commit of this pending-death entry actually kills:
the Patch still holds an alive Cell in the given grid. -/
def commitKills (grid : Grid) (e : (Nat × Nat) × Causes) : Bool :=
  match cellAt grid e.1 with
  | some c => c.alive
  | none => false

theorem commitKills_true_elim (grid : Grid) (e : (Nat × Nat) × Causes)
    (h : commitKills grid e = true) :
    ∃ c, cellAt grid e.1 = some c ∧ c.alive = true := by
  unfold commitKills at h
  rcases hoc : cellAt grid e.1 with _ | c
  · rw [hoc] at h
    exact Bool.noConfusion h
  · rw [hoc] at h
    exact ⟨c, rfl, h⟩

theorem commitEntry_skip_of_not_kills (st : TickState)
    (e : (Nat × Nat) × Causes) (h : commitKills st.grid e = false) :
    commitEntry st e = st := by
  apply commitEntry_skip
  intro c hc
  unfold commitKills at h
  rw [hc] at h
  exact h

/-- The exact statistics deltas of the commit fold: total deaths grow
by one per killed entry (independent of its causes), each per-cause
counter by one per killed entry carrying that cause. -/
theorem commit_fold_stats (entries : DieMap) (st : TickState)
    (hnd : entries.keys.Nodup) :
    (entries.foldl commitEntry st).deaths =
      st.deaths + entries.countP (commitKills st.grid) ∧
    (entries.foldl commitEntry st).byAge =
      st.byAge + entries.countP (fun e => commitKills st.grid e && e.2.age) ∧
    (entries.foldl commitEntry st).byDivisionLimit =
      st.byDivisionLimit +
        entries.countP (fun e => commitKills st.grid e && e.2.division_limit) ∧
    (entries.foldl commitEntry st).byOvercrowding =
      st.byOvercrowding +
        entries.countP (fun e => commitKills st.grid e && e.2.overcrowding) := by
  induction entries generalizing st with
  | nil => simp
  | cons e rest ih =>
    have hnotin : e.1 ∉ DieMap.keys rest := by
      have : DieMap.keys (e :: rest) = e.1 :: DieMap.keys rest := rfl
      rw [this, List.nodup_cons] at hnd
      exact hnd.1
    have hnd' : (DieMap.keys rest).Nodup := by
      have : DieMap.keys (e :: rest) = e.1 :: DieMap.keys rest := rfl
      rw [this, List.nodup_cons] at hnd
      exact hnd.2
    rw [List.foldl_cons]
    by_cases hk : commitKills st.grid e = true
    · obtain ⟨c, hoc, halive⟩ := commitKills_true_elim st.grid e hk
      have hcommit := commitEntry_kill st e c hoc halive
      have hgrid : (commitEntry st e).grid = setCell st.grid e.1 none := by
        rw [hcommit]
      have hcong : ∀ e' ∈ rest,
          commitKills (commitEntry st e).grid e' = commitKills st.grid e' := by
        intro e' he'
        have hne : e'.1 ≠ e.1 := by
          intro heq
          exact hnotin (heq ▸ (List.mem_map_of_mem Prod.fst he'))
        unfold commitKills
        rw [hgrid, cellAt_setCell_ne _ _ _ _ hne]
      obtain ⟨i1, i2, i3, i4⟩ := ih (commitEntry st e) hnd'
      have hcnt : ∀ (f : (Nat × Nat) × Causes → Bool),
          rest.countP (fun x => commitKills (commitEntry st e).grid x && f x) =
          rest.countP (fun x => commitKills st.grid x && f x) := by
        intro f
        apply List.countP_congr
        intro x hx
        rw [hcong x hx]
      have hcnt0 : rest.countP (commitKills (commitEntry st e).grid) =
          rest.countP (commitKills st.grid) := by
        apply List.countP_congr
        intro x hx
        rw [hcong x hx]
      refine ⟨?_, ?_, ?_, ?_⟩
      · rw [i1, hcnt0, hcommit, List.countP_cons]
        simp only [hk, if_true]
        omega
      · rw [i2, hcnt, hcommit, List.countP_cons]
        simp only [hk, Bool.true_and]
        cases hage : e.2.age <;> simp [hage] <;> omega
      · rw [i3, hcnt, hcommit, List.countP_cons]
        simp only [hk, Bool.true_and]
        cases hdl : e.2.division_limit <;> simp [hdl] <;> omega
      · rw [i4, hcnt, hcommit, List.countP_cons]
        simp only [hk, Bool.true_and]
        cases hov : e.2.overcrowding <;> simp [hov] <;> omega
    · have hk' : commitKills st.grid e = false := by
        cases hb : commitKills st.grid e
        · rfl
        · exact absurd hb hk
      rw [commitEntry_skip_of_not_kills st e hk']
      obtain ⟨i1, i2, i3, i4⟩ := ih st hnd'
      refine ⟨?_, ?_, ?_, ?_⟩
      · rw [i1, List.countP_cons]
        simp [hk']
      · rw [i2, List.countP_cons]
        simp [hk']
      · rw [i3, List.countP_cons]
        simp [hk']
      · rw [i4, List.countP_cons]
        simp [hk']


/-- Each killed entry carries at least one cause, so the per-cause
counts together dominate the kill count. -/
theorem countP_kills_le (entries : DieMap) (grid : Grid)
    (hne : ∀ e ∈ entries, e.2.isEmpty = false) :
    entries.countP (commitKills grid) ≤
      entries.countP (fun e => commitKills grid e && e.2.age) +
      entries.countP (fun e => commitKills grid e && e.2.division_limit) +
      entries.countP (fun e => commitKills grid e && e.2.overcrowding) := by
  induction entries with
  | nil => simp
  | cons e rest ih =>
    have hrest := ih (fun x hx => hne x (List.mem_cons_of_mem e hx))
    have he := hne e (List.mem_cons_self e rest)
    rw [List.countP_cons, List.countP_cons, List.countP_cons, List.countP_cons]
    by_cases hk : commitKills grid e = true
    · have hone : (1 : Nat) ≤ (if e.2.age then 1 else 0) +
          (if e.2.division_limit then 1 else 0) +
          (if e.2.overcrowding then 1 else 0) := by
        unfold Causes.isEmpty at he
        cases ha : e.2.age <;> cases hd : e.2.division_limit <;>
          cases ho : e.2.overcrowding <;> simp [ha, hd, ho] at he ⊢
      simp only [hk, Bool.true_and, if_true]
      cases ha : e.2.age <;> cases hd : e.2.division_limit <;>
        cases ho : e.2.overcrowding <;>
        simp [ha, hd, ho] at hone ⊢ <;> omega
    · have hk' : commitKills grid e = false := by
        cases hb : commitKills grid e
        · rfl
        · exact absurd hb hk
      simp only [hk', Bool.false_and, if_neg (by simp : ¬(false = true))]
      omega

/-! ### Wellformedness of the pending-death map through the phases -/

/-- The wellformedness the commit accounting needs: distinct keys, and
at least one cause per entry. -/
def DieMap.WF (m : DieMap) : Prop :=
  m.keys.Nodup ∧ ∀ e ∈ m, e.2.isEmpty = false

theorem DieMap.WF_empty : DieMap.WF [] := by
  constructor
  · simp [DieMap.keys]
  · intro e he
    simp at he

theorem DieMap.WF_addCause (m : DieMap) (p : Nat × Nat) (c : Cause)
    (h : m.WF) : (m.addCause p c).WF :=
  ⟨DieMap.keys_nodup_addCause m p c h.1,
   DieMap.nonempty_causes_addCause m p c h.2⟩

theorem deathScanStep_WF (cfg : Configuration) (grid : Grid) (m : DieMap)
    (p : Nat × Nat) (h : m.WF) : (deathScanStep cfg grid m p).WF := by
  unfold deathScanStep
  rcases hoc : cellAt grid p with _ | c
  · exact h
  · dsimp only
    by_cases halive : c.alive = true
    · rw [if_pos halive]
      by_cases hage : (c.age : Int) ≥ cfg.age_limit <;>
        by_cases hdiv : (c.divisions : Int) ≥ cfg.division_limit
      · rw [if_pos hage, if_pos hdiv]
        exact DieMap.WF_addCause _ _ _ (DieMap.WF_addCause _ _ _ h)
      · rw [if_pos hage, if_neg hdiv]
        exact DieMap.WF_addCause _ _ _ h
      · rw [if_neg hage, if_pos hdiv]
        exact DieMap.WF_addCause _ _ _ h
      · rw [if_neg hage, if_neg hdiv]
        exact h
    · rw [if_neg halive]
      exact h

theorem deathScan_WF (cfg : Configuration) (grid : Grid) (m : DieMap)
    (h : m.WF) : (deathScan cfg grid m).WF := by
  unfold deathScan
  generalize rowMajor cfg.grid_rows.toNat cfg.grid_cols.toNat = l
  induction l generalizing m with
  | nil => exact h
  | cons q rest ih => exact ih _ (deathScanStep_WF cfg grid m q h)

theorem divisionVisit_toDie_WF (cfg : Configuration) (s : TickState)
    (p : Nat × Nat) (h : s.toDie.WF) : (divisionVisit cfg s p).toDie.WF := by
  rcases divisionVisit_rec cfg s p with heq |
    ⟨cell, hoc, halive, hdie, hcd, hemp, heq⟩ |
    ⟨cell, hoc, halive, hdie, hcd, hemp, hb, heq⟩ |
    ⟨cell, hoc, halive, hdie, hcd, hemp, hb, htmem, heq⟩
  · rw [heq]; exact h
  · rw [heq]
    rcases handleOvercrowding_toDie cfg s.grid s.toDie s.rng p.1 p.2 with
      hh | ⟨t, hh⟩
    · show DieMap.WF (handleOvercrowding cfg s.grid s.toDie s.rng p.1 p.2).1
      rw [hh]; exact h
    · show DieMap.WF (handleOvercrowding cfg s.grid s.toDie s.rng p.1 p.2).1
      rw [hh]; exact DieMap.WF_addCause _ _ _ h
  · rw [heq]; exact h
  · rw [heq]
    show DieMap.WF (if _ then s.toDie.addCause p Cause.division_limit
      else s.toDie)
    by_cases hlim : cfg.division_limit ≤ ((cell.divisions + 1 : Nat) : Int)
    · rw [if_pos hlim]; exact DieMap.WF_addCause _ _ _ h
    · rw [if_neg hlim]; exact h

theorem divisionFold_toDie_WF (cfg : Configuration) (l : List (Nat × Nat))
    (s : TickState) (h : s.toDie.WF) :
    ((l.foldl (divisionVisit cfg) s)).toDie.WF := by
  induction l generalizing s with
  | nil => exact h
  | cons q rest ih => exact ih _ (divisionVisit_toDie_WF cfg s q h)

theorem tickData_toDie_WF (sim : Simulation) : sim.tickData.toDie.WF := by
  show DieMap.WF ((rowMajor _ _).foldl (divisionVisit sim.config) _).toDie
  exact divisionFold_toDie_WF _ _ _
    (deathScan_WF _ _ _ DieMap.WF_empty)

/-- Phase 3 never touches the four death counters. -/
theorem divisionVisit_stats_const (cfg : Configuration) (s : TickState)
    (p : Nat × Nat) :
    (divisionVisit cfg s p).deaths = s.deaths ∧
    (divisionVisit cfg s p).byAge = s.byAge ∧
    (divisionVisit cfg s p).byDivisionLimit = s.byDivisionLimit ∧
    (divisionVisit cfg s p).byOvercrowding = s.byOvercrowding := by
  rcases divisionVisit_rec cfg s p with heq |
    ⟨cell, hoc, halive, hdie, hcd, hemp, heq⟩ |
    ⟨cell, hoc, halive, hdie, hcd, hemp, hb, heq⟩ |
    ⟨cell, hoc, halive, hdie, hcd, hemp, hb, htmem, heq⟩ <;>
    rw [heq] <;> exact ⟨rfl, rfl, rfl, rfl⟩

theorem divisionFold_stats_const (cfg : Configuration)
    (l : List (Nat × Nat)) (s : TickState) :
    ((l.foldl (divisionVisit cfg) s)).deaths = s.deaths ∧
    ((l.foldl (divisionVisit cfg) s)).byAge = s.byAge ∧
    ((l.foldl (divisionVisit cfg) s)).byDivisionLimit = s.byDivisionLimit ∧
    ((l.foldl (divisionVisit cfg) s)).byOvercrowding = s.byOvercrowding := by
  induction l generalizing s with
  | nil => exact ⟨rfl, rfl, rfl, rfl⟩
  | cons q rest ih =>
    obtain ⟨a1, a2, a3, a4⟩ := divisionVisit_stats_const cfg s q
    obtain ⟨b1, b2, b3, b4⟩ := ih (divisionVisit cfg s q)
    exact ⟨b1.trans a1, b2.trans a2, b3.trans a3, b4.trans a4⟩

theorem tickData_stats (sim : Simulation) :
    sim.tickData.deaths = sim.total_deaths ∧
    sim.tickData.byAge = sim.deaths_by_age ∧
    sim.tickData.byDivisionLimit = sim.deaths_by_division_limit ∧
    sim.tickData.byOvercrowding = sim.deaths_by_overcrowding := by
  show ((rowMajor _ _).foldl (divisionVisit sim.config) _).deaths = _ ∧ _ ∧ _ ∧ _
  exact divisionFold_stats_const _ _ _

/-- One tick keeps the sum of per-cause counters at or above the death
total. -/
theorem tick_sum_ge (sim : Simulation)
    (h : sim.total_deaths ≤
      sim.deaths_by_age + sim.deaths_by_division_limit +
        sim.deaths_by_overcrowding) :
    sim.tick.total_deaths ≤
      sim.tick.deaths_by_age + sim.tick.deaths_by_division_limit +
        sim.tick.deaths_by_overcrowding := by
  obtain ⟨wf1, wf2⟩ := tickData_toDie_WF sim
  obtain ⟨c1, c2, c3, c4⟩ := commit_fold_stats sim.tickData.toDie
    sim.tickData wf1
  obtain ⟨d1, d2, d3, d4⟩ := tickData_stats sim
  have hle := countP_kills_le sim.tickData.toDie sim.tickData.grid wf2
  have e1 : sim.tick.total_deaths = (commitPhase sim.tickData).deaths := rfl
  have e2 : sim.tick.deaths_by_age = (commitPhase sim.tickData).byAge := rfl
  have e3 : sim.tick.deaths_by_division_limit =
    (commitPhase sim.tickData).byDivisionLimit := rfl
  have e4 : sim.tick.deaths_by_overcrowding =
    (commitPhase sim.tickData).byOvercrowding := rfl
  have hfold : commitPhase sim.tickData =
      sim.tickData.toDie.foldl commitEntry sim.tickData := rfl
  rw [e1, e2, e3, e4, hfold, c1, c2, c3, c4, d1, d2, d3, d4]
  omega

/-! ### Closed forms of a phase-3 visit -/

theorem divisionVisit_none (cfg : Configuration) (s : TickState)
    (p : Nat × Nat) (h : cellAt s.grid p = none) :
    divisionVisit cfg s p = s := by
  unfold divisionVisit
  rw [h]

/-- The closed form of a successful division. -/
theorem divisionVisit_divide (cfg : Configuration) (s : TickState)
    (p : Nat × Nat) (cell : Cell) (hoc : cellAt s.grid p = some cell)
    (halive : cell.alive = true) (hdie : s.toDie.find? p = none)
    (hcd : cfg.division_cooldown ≤ (cell.last_division : Int))
    (hemp : emptyNeighbors cfg s.grid p.1 p.2 ≠ [])
    (hb : (s.rng.randomLt cfg.division_probability).1 = true) :
    divisionVisit cfg s p = { s with
      grid := setCell (setCell s.grid p
        (some { cell with
            divisions := cell.divisions + 1
            last_division := 0 }))
        (RNG.choose (emptyNeighbors cfg s.grid p.1 p.2)
          (s.rng.randomLt cfg.division_probability).2).1
        (some Cell.newborn)
      toDie := if cfg.division_limit ≤ ((cell.divisions + 1 : Nat) : Int)
        then s.toDie.addCause p Cause.division_limit else s.toDie
      births := s.births ++
        [((RNG.choose (emptyNeighbors cfg s.grid p.1 p.2)
            (s.rng.randomLt cfg.division_probability).2).1, Cell.newborn)]
      created := s.created + 1
      rng := (RNG.choose (emptyNeighbors cfg s.grid p.1 p.2)
          (s.rng.randomLt cfg.division_probability).2).2 } := by
  unfold divisionVisit
  rw [hoc]
  dsimp only
  rw [if_neg (by rw [halive]; exact fun hf => Bool.noConfusion hf),
    if_neg (by rw [hdie]; simp),
    if_neg (Int.not_lt.mpr hcd), if_neg hemp, if_pos hb]

theorem foldl_divisionVisit_fix (cfg : Configuration)
    (l : List (Nat × Nat)) (s : TickState)
    (h : ∀ q ∈ l, divisionVisit cfg s q = s) :
    l.foldl (divisionVisit cfg) s = s := by
  induction l with
  | nil => rfl
  | cons x rest ih =>
    rw [List.foldl_cons, h x (List.mem_cons_self x rest)]
    exact ih fun q hq => h q (List.mem_cons_of_mem x hq)

theorem agePhase_setCell (g : Grid) (q : Nat × Nat) (oc : Option Cell) :
    agePhase (setCell g q oc) = setCell (agePhase g) q (ageSlot oc) := by
  unfold agePhase setCell
  rw [List.map_set]
  have h1 : (g.map (List.map ageSlot)).getD q.1 [] =
      (g.getD q.1 []).map ageSlot :=
    getD_map_default (List.map ageSlot) g q.1 [] [] rfl
  rw [h1, List.map_set]

theorem agePhase_emptyGrid (cfg : Configuration) :
    agePhase (emptyGrid cfg) = emptyGrid cfg := by
  unfold agePhase emptyGrid
  rw [List.map_replicate, List.map_replicate]
  rfl

theorem deathScanStep_id (cfg : Configuration) (grid : Grid) (m : DieMap)
    (p : Nat × Nat)
    (h : ∀ c, cellAt grid p = some c → c.alive = true →
      (c.age : Int) < cfg.age_limit ∧ (c.divisions : Int) < cfg.division_limit) :
    deathScanStep cfg grid m p = m := by
  unfold deathScanStep
  rcases hoc : cellAt grid p with _ | c
  · rfl
  · dsimp only
    by_cases halive : c.alive = true
    · obtain ⟨h1, h2⟩ := h c hoc halive
      rw [if_pos halive, if_neg (Int.not_le.mpr h1), if_neg (Int.not_le.mpr h2)]
    · rw [if_neg halive]

theorem deathScan_id (cfg : Configuration) (grid : Grid) (m : DieMap)
    (h : ∀ q c, cellAt grid q = some c → c.alive = true →
      (c.age : Int) < cfg.age_limit ∧
      (c.divisions : Int) < cfg.division_limit) :
    deathScan cfg grid m = m := by
  unfold deathScan
  generalize rowMajor cfg.grid_rows.toNat cfg.grid_cols.toNat = l
  induction l generalizing m with
  | nil => rfl
  | cons x rest ih =>
    rw [List.foldl_cons, deathScanStep_id cfg grid m x (fun c hc => h x c hc)]
    exact ih m

theorem allCellsDead_false_of_alive (sim : Simulation) (q : Nat × Nat)
    (c : Cell) (hoc : cellAt sim.grid q = some c) (hal : c.alive = true) :
    sim.allCellsDead = false := by
  obtain ⟨hb1, hb2⟩ := cellAt_some_bounds sim.grid q c hoc
  cases hres : sim.allCellsDead
  · rfl
  · exfalso
    unfold Simulation.allCellsDead at hres
    have hrow : sim.grid.getD q.1 [] ∈ sim.grid := by
      rw [List.getD_eq_getElem _ _ hb1]
      exact List.getElem_mem hb1
    have hslot : (some c) ∈ sim.grid.getD q.1 [] := by
      have : (sim.grid.getD q.1 []).getD q.2 none = some c := hoc
      rw [List.getD_eq_getElem _ _ hb2] at this
      rw [← this]
      exact List.getElem_mem hb2
    have h1 := List.all_eq_true.mp hres _ hrow
    have h2 := List.all_eq_true.mp h1 _ hslot
    dsimp only at h2
    rw [hal] at h2
    exact Bool.noConfusion h2

/-! ### Newborn immunity within a tick -/

/-- No cell's cooldown counter exceeds its age (both grow together and
dividing only resets the counter). -/
def agedInv (grid : Grid) : Prop :=
  ∀ p c, cellAt grid p = some c → c.last_division ≤ c.age

/-- Every birth recorded so far sits on its target Patch, is the
newborn value, and its Patch is not in the pending-death map. -/
def birthsSafe (s : TickState) : Prop :=
  ∀ pc ∈ s.births, pc.2 = Cell.newborn ∧ cellAt s.grid pc.1 = some pc.2 ∧
    s.toDie.find? pc.1 = none

/-- Every Patch of the pending-death map holds an alive Cell of age at
least 1. -/
def toDieAged (s : TickState) : Prop :=
  ∀ q ∈ s.toDie.keys, ∃ c, cellAt s.grid q = some c ∧ c.alive = true ∧
    1 ≤ c.age

/-- The phase-3 invariant for newborn immunity. -/
def phase3Inv (cfg : Configuration) (s : TickState) : Prop :=
  birthsSafe s ∧ toDieAged s ∧ agedInv s.grid ∧ allAlive s.grid ∧
    gridWF cfg s.grid

theorem wrap_self (n m : Nat) (h : n < m) : wrap (n : Int) m = n := by
  unfold wrap
  have h1 : (n : Int) % (m : Int) = ((n % m : Nat) : Int) := by push_cast; rfl
  rw [h1, Nat.mod_eq_of_lt h]
  rfl

theorem wrap_lt (i : Int) (n : Nat) (h : 0 < n) : wrap i n < n := by
  unfold wrap
  have hn : (n : Int) ≠ 0 := by exact_mod_cast Nat.pos_iff_ne_zero.mp h
  have h1 : 0 ≤ i % (n : Int) := Int.emod_nonneg i hn
  have h2 : i % (n : Int) < (n : Int) := Int.emod_lt_of_pos i (by exact_mod_cast h)
  omega

theorem center_mem_regionCoords (cfg : Configuration) (p : Nat × Nat)
    (h1 : p.1 < cfg.grid_rows.toNat) (h2 : p.2 < cfg.grid_cols.toNat) :
    p ∈ regionCoords cfg p.1 p.2 := by
  unfold regionCoords
  refine List.mem_map.mpr ⟨((0 : Int), (0 : Int)), by decide, ?_⟩
  dsimp only
  rw [add_zero, add_zero, wrap_self _ _ h1, wrap_self _ _ h2]

theorem emptyNeighbors_mem_elim (cfg : Configuration) (grid : Grid)
    (r c : Nat) (t : Nat × Nat) (hr : 0 < cfg.grid_rows.toNat)
    (hc : 0 < cfg.grid_cols.toNat)
    (h : t ∈ emptyNeighbors cfg grid r c) :
    cellAt grid t = none ∧ t.1 < cfg.grid_rows.toNat ∧
      t.2 < cfg.grid_cols.toNat := by
  unfold emptyNeighbors at h
  obtain ⟨d, hd, hf⟩ := List.mem_filterMap.mp h
  dsimp only at hf
  by_cases hemp : cellAt grid
      (wrap ((r : Int) + d.1) cfg.grid_rows.toNat,
       wrap ((c : Int) + d.2) cfg.grid_cols.toNat) = none
  · rw [if_pos hemp] at hf
    injection hf with ht
    rw [← ht]
    exact ⟨hemp, wrap_lt _ _ hr, wrap_lt _ _ hc⟩
  · rw [if_neg hemp] at hf
    exact Option.noConfusion hf

theorem gridWF_divisionVisit (cfg : Configuration) (s : TickState)
    (p : Nat × Nat) (h : gridWF cfg s.grid) :
    gridWF cfg (divisionVisit cfg s p).grid := by
  rcases divisionVisit_rec cfg s p with heq |
    ⟨cell, hoc, halive, hdie, hcd, hemp, heq⟩ |
    ⟨cell, hoc, halive, hdie, hcd, hemp, hb, heq⟩ |
    ⟨cell, hoc, halive, hdie, hcd, hemp, hb, htmem, heq⟩ <;> rw [heq]
  · exact h
  · exact h
  · exact h
  · exact gridWF_setCell cfg _ _ _ (gridWF_setCell cfg _ _ _ h)

theorem commit_fold_untouched (entries : DieMap) (st : TickState)
    (q : Nat × Nat) (h : q ∉ entries.keys) :
    cellAt (entries.foldl commitEntry st).grid q = cellAt st.grid q := by
  induction entries generalizing st with
  | nil => rfl
  | cons e rest ih =>
    have hq1 : q ≠ e.1 := by
      intro he
      exact h (by rw [he]; exact List.mem_cons_self _ _)
    have hq2 : q ∉ DieMap.keys rest := by
      intro hm
      exact h (List.mem_cons_of_mem _ hm)
    rw [List.foldl_cons, ih (commitEntry st e) hq2,
      commitEntry_cellAt_ne st e q hq1]

/-- One phase-3 visit preserves the newborn-immunity invariant. -/
theorem phase3Inv_visit (cfg : Configuration) (s : TickState)
    (p : Nat × Nat) (hv : validConfig cfg) (h : phase3Inv cfg s) :
    phase3Inv cfg (divisionVisit cfg s p) := by
  obtain ⟨hb, ht, hag, hal, hwf⟩ := h
  have hcd1 : (1 : Int) ≤ cfg.division_cooldown := hv.2.2.2.2.2.2.2.1
  rcases divisionVisit_rec cfg s p with heq |
    ⟨cell, hoc, halive, hdie, hcd, hemp, heq⟩ |
    ⟨cell, hoc, halive, hdie, hcd, hemp, hbF, heq⟩ |
    ⟨cell, hoc, halive, hdie, hcd, hemp, hbT, htmem, heq⟩
  · rw [heq]
    exact ⟨hb, ht, hag, hal, hwf⟩
  · -- overcrowding resolution
    rw [heq]
    have hage1 : 1 ≤ cell.age := by
      have h1 := hag p cell hoc
      have h2 : (1 : Int) ≤ (cell.last_division : Int) :=
        le_trans hcd1 hcd
      have h3 : 1 ≤ cell.last_division := by exact_mod_cast h2
      omega
    obtain ⟨hpb1, hpb2⟩ := cellAt_some_bounds s.grid p cell hoc
    have hp1 : p.1 < cfg.grid_rows.toNat := by rw [← hwf.1]; exact hpb1
    have hp2 : p.2 < cfg.grid_cols.toNat := by
      rw [← gridWF_rowLen cfg s.grid hwf p.1 hpb1]
      exact hpb2
    have hcenter := center_mem_regionCoords cfg p hp1 hp2
    have hcells : (p, cell.age) ∈
        regionCells s.grid (regionCoords cfg p.1 p.2) :=
      regionCells_mem_intro s.grid _ p cell hcenter hoc halive
    have hne : regionCells s.grid (regionCoords cfg p.1 p.2) ≠ [] := by
      intro hn
      rw [hn] at hcells
      simp at hcells
    obtain ⟨t, htold, htoDie, -, htne⟩ :=
      handleOvercrowding_spec cfg s.grid s.toDie s.rng p.1 p.2 hne
    obtain ⟨hcoordt, ct, hoct, halt, haget⟩ :=
      regionCells_mem_elim s.grid _ _ (oldestPatches_mem_elim _ t htold)
    have hmx := maxAge_ge _ _ hcells
    have hct1 : 1 ≤ ct.age := by
      dsimp only at haget
      omega
    refine ⟨?_, ?_, hag, hal, hwf⟩
    · intro pc hpc
      obtain ⟨b1, b2, b3⟩ := hb pc hpc
      refine ⟨b1, b2, ?_⟩
      show ((handleOvercrowding cfg s.grid s.toDie s.rng p.1 p.2).1.find?
        pc.1) = none
      rw [htoDie]
      have hneq : pc.1 ≠ t := by
        intro he
        rw [he, hoct] at b2
        injection b2 with hcc
        rw [b1] at hcc
        rw [hcc] at hct1
        simp [Cell.newborn] at hct1
      rw [DieMap.find?_addCause_ne s.toDie t pc.1 Cause.overcrowding hneq]
      exact b3
    · intro q hq
      show ∃ c, cellAt s.grid q = some c ∧ _
      have hq' : q ∈ ((handleOvercrowding cfg s.grid s.toDie s.rng p.1
        p.2).1).keys := hq
      rw [htoDie] at hq'
      rcases (DieMap.mem_keys_addCause s.toDie t q Cause.overcrowding).mp hq'
        with hin | heqt
      · exact ht q hin
      · rw [heqt]
        exact ⟨ct, hoct, halt, hct1⟩
  · rw [heq]
    exact ⟨hb, ht, hag, hal, hwf⟩
  · -- a division happened
    rw [heq]
    have hr0 : 0 < cfg.grid_rows.toNat := by
      have := hv.1
      omega
    have hc0 : 0 < cfg.grid_cols.toNat := by
      have := hv.2.1
      omega
    obtain ⟨htnone, ht1, ht2⟩ := emptyNeighbors_mem_elim cfg s.grid p.1 p.2 _
      hr0 hc0 htmem
    obtain ⟨hpb1, hpb2⟩ := cellAt_some_bounds s.grid p cell hoc
    have hage1 : 1 ≤ cell.age := by
      have h1 := hag p cell hoc
      have h2 : (1 : Int) ≤ (cell.last_division : Int) := le_trans hcd1 hcd
      have h3 : 1 ≤ cell.last_division := by exact_mod_cast h2
      omega
    set t := (RNG.choose (emptyNeighbors cfg s.grid p.1 p.2)
      (s.rng.randomLt cfg.division_probability).2).1 with htdef
    set parent : Cell :=
      { cell with divisions := cell.divisions + 1, last_division := 0 }
      with hpdef
    have hpt : p ≠ t := by
      intro he
      rw [← he] at htnone
      rw [htnone] at hoc
      exact Option.noConfusion hoc
    have htb1 : t.1 < (setCell s.grid p (some parent)).length := by
      rw [length_setCell, hwf.1]
      exact ht1
    have htb2 : t.2 < ((setCell s.grid p (some parent)).getD t.1 []).length := by
      rw [rowLen_setCell]
      rw [gridWF_rowLen cfg s.grid hwf t.1 (by rw [hwf.1]; exact ht1)]
      exact ht2
    have hcellt : cellAt (setCell (setCell s.grid p (some parent)) t
        (some Cell.newborn)) t = some Cell.newborn :=
      cellAt_setCell_self _ _ _ htb1 htb2
    have hcellp : cellAt (setCell (setCell s.grid p (some parent)) t
        (some Cell.newborn)) p = some parent := by
      rw [cellAt_setCell_ne _ _ _ _ hpt]
      exact cellAt_setCell_self _ _ _ hpb1 hpb2
    have hcellother : ∀ q, q ≠ p → q ≠ t →
        cellAt (setCell (setCell s.grid p (some parent)) t
          (some Cell.newborn)) q = cellAt s.grid q := by
      intro q hq1 hq2
      rw [cellAt_setCell_ne _ _ _ _ hq2, cellAt_setCell_ne _ _ _ _ hq1]
    have htnotin : s.toDie.find? t = none := by
      rw [DieMap.find?_eq_none_iff]
      intro hmem
      obtain ⟨c0, hc0', -, -⟩ := ht t hmem
      rw [htnone] at hc0'
      exact Option.noConfusion hc0'
    refine ⟨?_, ?_, ?_, ?_, ?_⟩
    · -- birthsSafe
      intro pc hpc
      simp only at hpc
      rcases List.mem_append.mp hpc with hold | hnew
      · obtain ⟨b1, b2, b3⟩ := hb pc hold
        have hpcp : pc.1 ≠ p := by
          intro he
          rw [he, hoc] at b2
          injection b2 with hcc
          rw [b1] at hcc
          have : Cell.newborn.age = cell.age := by rw [hcc]
          simp [Cell.newborn] at this
          omega
        have hpct : pc.1 ≠ t := by
          intro he
          rw [he, htnone] at b2
          exact Option.noConfusion b2
        refine ⟨b1, ?_, ?_⟩
        · show cellAt (setCell (setCell s.grid p (some parent)) t
            (some Cell.newborn)) pc.1 = some pc.2
          rw [hcellother pc.1 hpcp hpct]
          exact b2
        · show DieMap.find? (if cfg.division_limit ≤
            ((cell.divisions + 1 : Nat) : Int) then
              s.toDie.addCause p Cause.division_limit else s.toDie) pc.1 = none
          by_cases hdl : cfg.division_limit ≤ ((cell.divisions + 1 : Nat) : Int)
          · rw [if_pos hdl,
              DieMap.find?_addCause_ne s.toDie p pc.1 _ hpcp]
            exact b3
          · rw [if_neg hdl]
            exact b3
      · have hpc' : pc = (t, Cell.newborn) := by
          simpa using hnew
        rw [hpc']
        refine ⟨rfl, hcellt, ?_⟩
        show DieMap.find? (if cfg.division_limit ≤
          ((cell.divisions + 1 : Nat) : Int) then
            s.toDie.addCause p Cause.division_limit else s.toDie) t = none
        by_cases hdl : cfg.division_limit ≤ ((cell.divisions + 1 : Nat) : Int)
        · rw [if_pos hdl,
            DieMap.find?_addCause_ne s.toDie p t _ (fun he => hpt he.symm)]
          exact htnotin
        · rw [if_neg hdl]
          exact htnotin
    · -- toDieAged
      intro q hq
      simp only at hq
      have hq' : q ∈ (if cfg.division_limit ≤
          ((cell.divisions + 1 : Nat) : Int) then
            s.toDie.addCause p Cause.division_limit else s.toDie).keys := hq
      have hqold : q ∈ s.toDie.keys ∨ q = p := by
        by_cases hdl : cfg.division_limit ≤ ((cell.divisions + 1 : Nat) : Int)
        · rw [if_pos hdl] at hq'
          exact (DieMap.mem_keys_addCause s.toDie p q _).mp hq'
        · rw [if_neg hdl] at hq'
          exact Or.inl hq'
      rcases hqold with hin | heqp
      · obtain ⟨c0, hc0', hal0, hage0⟩ := ht q hin
        have hqp : q ≠ p := by
          intro he
          rw [DieMap.find?_eq_none_iff] at hdie
          exact hdie (he ▸ hin)
        have hqt : q ≠ t := by
          intro he
          rw [he, htnone] at hc0'
          exact Option.noConfusion hc0'
        exact ⟨c0, by rw [hcellother q hqp hqt]; exact hc0', hal0, hage0⟩
      · rw [heqp]
        exact ⟨parent, hcellp, halive, hage1⟩
    · -- agedInv
      intro q cq hcq
      simp only at hcq
      by_cases hqt : q = t
      · rw [hqt, hcellt] at hcq
        injection hcq with hcc
        rw [← hcc]
        exact Nat.le_refl 0
      · by_cases hqp : q = p
        · rw [hqp, hcellp] at hcq
          injection hcq with hcc
          rw [← hcc]
          exact Nat.zero_le _
        · rw [hcellother q hqp hqt] at hcq
          exact hag q cq hcq
    · -- allAlive
      intro q cq hcq
      simp only at hcq
      by_cases hqt : q = t
      · rw [hqt, hcellt] at hcq
        injection hcq with hcc
        rw [← hcc]
        rfl
      · by_cases hqp : q = p
        · rw [hqp, hcellp] at hcq
          injection hcq with hcc
          rw [← hcc]
          exact halive
        · rw [hcellother q hqp hqt] at hcq
          exact hal q cq hcq
    · -- gridWF
      exact gridWF_setCell cfg _ _ _ (gridWF_setCell cfg _ _ _ hwf)

theorem phase3Inv_fold (cfg : Configuration) (l : List (Nat × Nat))
    (s : TickState) (hv : validConfig cfg) (h : phase3Inv cfg s) :
    phase3Inv cfg (l.foldl (divisionVisit cfg) s) := by
  induction l generalizing s with
  | nil => exact h
  | cons q rest ih => exact ih _ (phase3Inv_visit cfg s q hv h)

/-- In the aged grid, every occupant (all alive) has age at least 1. -/
theorem agePhase_age_pos (grid : Grid) (hal : allAlive grid) :
    ∀ p c, cellAt (agePhase grid) p = some c → 1 ≤ c.age := by
  intro p c hc
  rw [cellAt_agePhase] at hc
  rcases hoc : cellAt grid p with _ | c0
  · rw [hoc] at hc
    exact Option.noConfusion hc
  · rw [hoc] at hc
    have h0 := hal p c0 hoc
    rw [show ageSlot (some c0) = if c0.alive then some c0.tick else some c0
      from rfl, if_pos h0] at hc
    injection hc with hcc
    rw [← hcc]
    show 1 ≤ c0.age + 1
    omega

theorem agedInv_agePhase (grid : Grid) (h : agedInv grid) :
    agedInv (agePhase grid) := by
  intro p c hc
  rw [cellAt_agePhase] at hc
  rcases hoc : cellAt grid p with _ | c0
  · rw [hoc] at hc
    exact Option.noConfusion hc
  · rw [hoc] at hc
    have h0 := h p c0 hoc
    rw [show ageSlot (some c0) = if c0.alive then some c0.tick else some c0
      from rfl] at hc
    by_cases halive : c0.alive = true
    · rw [if_pos halive] at hc
      injection hc with hcc
      rw [← hcc]
      show c0.last_division + 1 ≤ c0.age + 1
      omega
    · rw [if_neg halive] at hc
      injection hc with hcc
      rw [← hcc]
      exact h0

/-- Phase 2 only creates entries whose Patch holds an alive cell. -/
theorem deathScan_keys_occupied (cfg : Configuration) (grid : Grid)
    (hpos : ∀ p c, cellAt grid p = some c → 1 ≤ c.age) :
    ∀ (l : List (Nat × Nat)) (m : DieMap),
      (∀ q ∈ m.keys, ∃ c, cellAt grid q = some c ∧ c.alive = true ∧
        1 ≤ c.age) →
      ∀ q ∈ (l.foldl (deathScanStep cfg grid) m).keys,
        ∃ c, cellAt grid q = some c ∧ c.alive = true ∧ 1 ≤ c.age := by
  intro l
  induction l with
  | nil => exact fun m h => h
  | cons x rest ih =>
    intro m h
    refine ih _ ?_
    intro q hq
    unfold deathScanStep at hq
    rcases hoc : cellAt grid x with _ | c
    · rw [hoc] at hq
      exact h q hq
    · rw [hoc] at hq
      dsimp only at hq
      by_cases halive : c.alive = true
      · rw [if_pos halive] at hq
        have hstep : ∀ (m' : DieMap) (cz : Cause),
            q ∈ (m'.addCause x cz).keys →
            (∀ r ∈ m'.keys, ∃ cc, cellAt grid r = some cc ∧
              cc.alive = true ∧ 1 ≤ cc.age) →
            ∃ cc, cellAt grid q = some cc ∧ cc.alive = true ∧ 1 ≤ cc.age := by
          intro m' cz hh hmm
          rcases (DieMap.mem_keys_addCause m' x q cz).mp hh with hin | heq
          · exact hmm q hin
          · rw [heq]
            exact ⟨c, hoc, halive, hpos x c hoc⟩
        by_cases hage : (c.age : Int) ≥ cfg.age_limit <;>
          by_cases hdiv : (c.divisions : Int) ≥ cfg.division_limit
        · rw [if_pos hage, if_pos hdiv] at hq
          refine hstep _ _ hq ?_
          intro r hr
          rcases (DieMap.mem_keys_addCause m x r Cause.age).mp hr with
            hin | heq
          · exact h r hin
          · rw [heq]
            exact ⟨c, hoc, halive, hpos x c hoc⟩
        · rw [if_pos hage, if_neg hdiv] at hq
          rcases (DieMap.mem_keys_addCause m x q Cause.age).mp hq with
            hin | heq
          · exact h q hin
          · rw [heq]
            exact ⟨c, hoc, halive, hpos x c hoc⟩
        · rw [if_neg hage, if_pos hdiv] at hq
          exact hstep m Cause.division_limit hq h
        · rw [if_neg hage, if_neg hdiv] at hq
          exact h q hq
      · rw [if_neg halive] at hq
        exact h q hq

/-- The newborn-immunity invariant holds when phase 3 starts. -/
theorem phase3Inv_start (sim : Simulation)
    (hwf : gridWF sim.config sim.grid) (hal : allAlive sim.grid)
    (hag : agedInv sim.grid) :
    phase3Inv sim.config sim.tickDataStart := by
  refine ⟨?_, ?_, agedInv_agePhase _ hag, allAlive_agePhase _ hal,
    gridWF_agePhase _ _ hwf⟩
  · intro pc hpc
    simp [Simulation.tickDataStart] at hpc
  · intro q hq
    show ∃ c, cellAt (agePhase sim.grid) q = some c ∧ _
    have := deathScan_keys_occupied sim.config (agePhase sim.grid)
      (agePhase_age_pos sim.grid hal)
      (rowMajor sim.config.grid_rows.toNat sim.config.grid_cols.toNat) []
      (by intro r hr; simp [DieMap.keys] at hr)
    exact this q hq

theorem commitEntry_grid_cases (st : TickState) (e : (Nat × Nat) × Causes) :
    (commitEntry st e).grid = st.grid ∨
    (commitEntry st e).grid = setCell st.grid e.1 none := by
  unfold commitEntry
  split
  · exact Or.inl rfl
  · split
    · exact Or.inr rfl
    · exact Or.inl rfl

theorem gridWF_commitFold (cfg : Configuration) (entries : DieMap)
    (st : TickState) (h : gridWF cfg st.grid) :
    gridWF cfg (entries.foldl commitEntry st).grid := by
  induction entries generalizing st with
  | nil => exact h
  | cons e rest ih =>
    rw [List.foldl_cons]
    refine ih (commitEntry st e) ?_
    rcases commitEntry_grid_cases st e with hc | hc
    · rw [hc]; exact h
    · rw [hc]; exact gridWF_setCell cfg _ _ _ h

theorem agedInv_commitFold (entries : DieMap) (st : TickState)
    (h : agedInv st.grid) : agedInv (entries.foldl commitEntry st).grid := by
  intro p c hc
  exact h p c (commit_fold_occupancy_mono entries st p c hc)

/-- The cross-tick invariant of a running engine. -/
def SimInv (sim : Simulation) : Prop :=
  gridWF sim.config sim.grid ∧ allAlive sim.grid ∧ agedInv sim.grid

theorem SimInv_init (cfg : Configuration) (g : RNG) (sim : Simulation)
    (h : Simulation.init cfg g = Except.ok sim) : SimInv sim := by
  obtain ⟨hval, hsim⟩ := init_ok_elim cfg g sim h
  obtain ⟨-, -, hnew, hwf⟩ := build_grid_facts cfg g hval
  subst hsim
  refine ⟨hwf, allAlive_init cfg g _ (init_ok_of_valid cfg g hval), ?_⟩
  intro p c hc
  rw [hnew p c hc]
  exact Nat.le_refl 0

theorem phase3Inv_tickData (sim : Simulation) (hv : validConfig sim.config)
    (h : SimInv sim) : phase3Inv sim.config sim.tickData := by
  show phase3Inv _ ((rowMajor _ _).foldl (divisionVisit sim.config) _)
  exact phase3Inv_fold _ _ _ hv (phase3Inv_start sim h.1 h.2.1 h.2.2)

theorem SimInv_tick (sim : Simulation) (hv : validConfig sim.config)
    (h : SimInv sim) : SimInv sim.tick := by
  obtain ⟨-, -, -, -, hwf⟩ := phase3Inv_tickData sim hv h
  have hag : agedInv sim.tickData.grid := (phase3Inv_tickData sim hv h).2.2.1
  refine ⟨?_, allAlive_tick sim h.2.1, ?_⟩
  · show gridWF sim.config (commitPhase sim.tickData).grid
    exact gridWF_commitFold sim.config _ _ hwf
  · show agedInv (commitPhase sim.tickData).grid
    exact agedInv_commitFold _ _ hag

theorem tickN_config (sim : Simulation) (n : Nat) :
    (sim.tickN n).config = sim.config := by
  induction n with
  | zero => rfl
  | succ n ih =>
    show (sim.tickN n).tick.config = _
    rw [show (sim.tickN n).tick.config = (sim.tickN n).config from rfl, ih]

theorem SimInv_tickN (cfg : Configuration) (g : RNG) (sim : Simulation)
    (n : Nat) (h : Simulation.init cfg g = Except.ok sim) :
    SimInv (sim.tickN n) := by
  have hval : validConfig cfg := (init_ok_elim cfg g sim h).1
  have hcfg : sim.config = cfg := by
    rw [(init_ok_elim cfg g sim h).2]
    rfl
  induction n with
  | zero => exact SimInv_init cfg g sim h
  | succ n ih =>
    refine SimInv_tick (sim.tickN n) ?_ ih
    rw [tickN_config, hcfg]
    exact hval

/-! ### Scenario configurations -/

/-- Scenario B of the spec, exactly as the claim states it
(division_cooldown = 0). -/
def scenarioB : Configuration :=
  { grid_rows := 5
    grid_cols := 5
    initial_population := 1
    age_limit := 100
    division_limit := 100
    division_probability := 1
    division_cooldown := 0
    time_limit := 1
    visualisation_enabled := false }

/-- Scenario B amended to the smallest cooldown the validator accepts
(division_cooldown = 1). -/
def scenarioB1 : Configuration :=
  { scenarioB with division_cooldown := 1 }

/-- Scenario A of the spec: a single cell that dies of age on tick 1. -/
def scenarioA : Configuration :=
  { grid_rows := 3
    grid_cols := 3
    initial_population := 1
    age_limit := 1
    division_limit := 5
    division_probability := 0
    division_cooldown := 5
    time_limit := 2
    visualisation_enabled := false }

/-- Scenario C of the spec: a full 3x3 grid, division impossible, so
every division attempt resolves overcrowding. -/
def scenarioC : Configuration :=
  { grid_rows := 3
    grid_cols := 3
    initial_population := 9
    age_limit := 100
    division_limit := 100
    division_probability := 0
    division_cooldown := 1
    time_limit := 1
    visualisation_enabled := false }

/-! ### Claim theorems (first group) -/

/-- C2: two engines constructed with identical configuration and the
same seed produce identical (total_created, total_deaths, per-cause
counter) trajectories after every tick: the embedding draws all
randomness from the single RNG state seeded once at construction, so
the whole run is a pure function of (configuration, seed). -/
theorem claim2_determinism (cfg₁ cfg₂ : Configuration) (s₁ s₂ : Nat)
    (hc : cfg₁ = cfg₂) (hs : s₁ = s₂) :
    ∀ n, statsAfter cfg₁ s₁ n = statsAfter cfg₂ s₂ n := by
  subst hc
  subst hs
  intro n
  rfl

theorem claim2_determinism_witness :
    scenarioB1 = scenarioB1 ∧ (0 : Nat) = 0 ∧
    statsAfter scenarioB1 0 1 = statsAfter scenarioB1 0 1 :=
  ⟨rfl, rfl, claim2_determinism scenarioB1 scenarioB1 0 0 rfl rfl 1⟩

/-- C8: constructing the engine from a configuration violating any
stated constraint yields a validation error and no engine value at all
(never a half-built engine), while every configuration satisfying all
the constraints constructs successfully. -/
theorem claim8_validation (cfg : Configuration) (g : RNG) :
    (¬ validConfig cfg → ∃ e, Simulation.init cfg g = Except.error e) ∧
    (validConfig cfg →
      Simulation.init cfg g = Except.ok (Simulation.build cfg g)) :=
  ⟨init_error_of_invalid cfg g, init_ok_of_valid cfg g⟩

theorem claim8_validation_witness :
    (¬ validConfig scenarioB ∧
      ∃ e, Simulation.init scenarioB ⟨0⟩ = Except.error e) ∧
    (validConfig scenarioB1 ∧
      Simulation.init scenarioB1 ⟨0⟩ =
        Except.ok (Simulation.build scenarioB1 ⟨0⟩)) :=
  ⟨⟨by decide, (claim8_validation scenarioB ⟨0⟩).1 (by decide)⟩,
   ⟨by decide, (claim8_validation scenarioB1 ⟨0⟩).2 (by decide)⟩⟩

/-- C9: for every valid configuration, immediately after construction
exactly initial_population distinct Patches are occupied, every
occupant is a newly created Cell, and total_created equals
initial_population. -/
theorem claim9_seeding (cfg : Configuration) (g : RNG) (sim : Simulation)
    (h : Simulation.init cfg g = Except.ok sim) :
    occupiedCount sim.grid = cfg.initial_population.toNat ∧
    sim.total_cells_created = cfg.initial_population.toNat ∧
    ∀ q c, cellAt sim.grid q = some c → c = Cell.newborn := by
  obtain ⟨hval, hsim⟩ := init_ok_elim cfg g sim h
  subst hsim
  obtain ⟨b1, b2, b3, -⟩ := build_grid_facts cfg g hval
  exact ⟨b1, b2, b3⟩

theorem claim9_seeding_witness :
    Simulation.init scenarioB1 ⟨0⟩ =
      Except.ok (Simulation.build scenarioB1 ⟨0⟩) ∧
    occupiedCount (Simulation.build scenarioB1 ⟨0⟩).grid = 1 ∧
    (Simulation.build scenarioB1 ⟨0⟩).total_cells_created = 1 ∧
    (∀ q c, cellAt (Simulation.build scenarioB1 ⟨0⟩).grid q = some c →
      c = Cell.newborn) := by
  have hok : Simulation.init scenarioB1 ⟨0⟩ =
      Except.ok (Simulation.build scenarioB1 ⟨0⟩) :=
    init_ok_of_valid scenarioB1 ⟨0⟩ (by decide)
  have h := claim9_seeding scenarioB1 ⟨0⟩ (Simulation.build scenarioB1 ⟨0⟩) hok
  exact ⟨hok, h.1, h.2.1, h.2.2⟩

/-- C7: at commit, total_deaths grows by exactly 1 per Patch committed
dead regardless of how many cause tags it carries, and each per-cause
counter grows by exactly 1 per committed Patch carrying that cause
(first conjunct); consequently, over any run from construction, the sum
of the three per-cause counters is at least total_deaths after every
tick (second conjunct). -/
theorem claim7_commit_accounting :
    (∀ st : TickState, st.toDie.keys.Nodup →
      (commitPhase st).deaths =
        st.deaths + st.toDie.countP (commitKills st.grid) ∧
      (commitPhase st).byAge =
        st.byAge + st.toDie.countP
          (fun e => commitKills st.grid e && e.2.age) ∧
      (commitPhase st).byDivisionLimit =
        st.byDivisionLimit + st.toDie.countP
          (fun e => commitKills st.grid e && e.2.division_limit) ∧
      (commitPhase st).byOvercrowding =
        st.byOvercrowding + st.toDie.countP
          (fun e => commitKills st.grid e && e.2.overcrowding)) ∧
    (∀ (cfg : Configuration) (g : RNG) (sim : Simulation) (n : Nat),
      Simulation.init cfg g = Except.ok sim →
      (sim.tickN n).total_deaths ≤
        (sim.tickN n).deaths_by_age +
          (sim.tickN n).deaths_by_division_limit +
          (sim.tickN n).deaths_by_overcrowding) := by
  constructor
  · intro st hnd
    have hfold : commitPhase st = st.toDie.foldl commitEntry st := rfl
    rw [hfold]
    exact commit_fold_stats st.toDie st hnd
  · intro cfg g sim n hinit
    obtain ⟨hval, hsim⟩ := init_ok_elim cfg g sim hinit
    subst hsim
    induction n with
    | zero =>
      have h0 : (Simulation.build cfg g).total_deaths = 0 := rfl
      have h1 : (Simulation.build cfg g).deaths_by_age = 0 := rfl
      have h2 : (Simulation.build cfg g).deaths_by_division_limit = 0 := rfl
      have h3 : (Simulation.build cfg g).deaths_by_overcrowding = 0 := rfl
      show (Simulation.build cfg g).total_deaths ≤ _
      omega
    | succ n ih =>
      exact tick_sum_ge _ ih

theorem claim7_commit_accounting_witness :
    ((Simulation.build scenarioC ⟨0⟩).tickData.toDie.keys.Nodup ∧
     (commitPhase (Simulation.build scenarioC ⟨0⟩).tickData).deaths =
       (Simulation.build scenarioC ⟨0⟩).tickData.deaths +
         (Simulation.build scenarioC ⟨0⟩).tickData.toDie.countP
           (commitKills (Simulation.build scenarioC ⟨0⟩).tickData.grid)) ∧
    (Simulation.init scenarioC ⟨0⟩ =
       Except.ok (Simulation.build scenarioC ⟨0⟩) ∧
     ((Simulation.build scenarioC ⟨0⟩).tickN 1).total_deaths ≤
       ((Simulation.build scenarioC ⟨0⟩).tickN 1).deaths_by_age +
         ((Simulation.build scenarioC ⟨0⟩).tickN 1).deaths_by_division_limit +
         ((Simulation.build scenarioC ⟨0⟩).tickN 1).deaths_by_overcrowding) := by
  have hinit : Simulation.init scenarioC ⟨0⟩ =
      Except.ok (Simulation.build scenarioC ⟨0⟩) :=
    init_ok_of_valid scenarioC ⟨0⟩ (by decide)
  exact ⟨⟨by decide, (claim7_commit_accounting.1 _ (by decide)).1⟩,
    ⟨hinit, claim7_commit_accounting.2 scenarioC ⟨0⟩ _ 1 hinit⟩⟩

/-- C5: phase 3 skips a visit, changing nothing and drawing no random
value, exactly when the code's guard fails (first conjunct), and under
the invariant "every alive cell at its division limit is already in the
pending-death map" the guard is equivalent to the spec's eligibility
condition divisions < division_limit and ticks_since_division at least
division_cooldown and the Patch not in the map (second conjunct); the
invariant holds when phase 3 starts (third conjunct) and is preserved
by every phase-3 visit for any configuration with division_limit at
least 1 (fourth conjunct). -/
theorem claim5_eligibility :
    (∀ (cfg : Configuration) (s : TickState) (p : Nat × Nat),
      divisionGuard cfg s p = false → divisionVisit cfg s p = s) ∧
    (∀ (cfg : Configuration) (s : TickState) (p : Nat × Nat) (cell : Cell),
      divisionInv cfg s → cellAt s.grid p = some cell →
      cell.alive = true →
      (divisionGuard cfg s p = true ↔
        ((cell.divisions : Int) < cfg.division_limit ∧
         cfg.division_cooldown ≤ (cell.last_division : Int) ∧
         s.toDie.find? p = none))) ∧
    (∀ sim : Simulation, gridWF sim.config sim.grid →
      divisionInv sim.config sim.tickDataStart) ∧
    (∀ (cfg : Configuration) (s : TickState) (p : Nat × Nat),
      1 ≤ cfg.division_limit → divisionInv cfg s →
      divisionInv cfg (divisionVisit cfg s p)) :=
  ⟨divisionVisit_skip,
   fun cfg s p cell hinv hoc halive => divisionGuard_iff cfg s p cell hinv hoc halive,
   divisionInv_start,
   divisionInv_visit⟩

theorem claim5_eligibility_witness :
    (divisionVisit scenarioA (Simulation.build scenarioA ⟨0⟩).tickDataStart
      (0, 0) = (Simulation.build scenarioA ⟨0⟩).tickDataStart) ∧
    (divisionGuard scenarioC
        (Simulation.build scenarioC ⟨0⟩).tickDataStart (0, 0) = true ↔
      ((((⟨1, 0, 1, true⟩ : Cell).divisions : Nat) : Int) <
          scenarioC.division_limit ∧
        scenarioC.division_cooldown ≤
          (((⟨1, 0, 1, true⟩ : Cell).last_division : Nat) : Int) ∧
        (Simulation.build scenarioC ⟨0⟩).tickDataStart.toDie.find? (0, 0) =
          none)) ∧
    divisionInv scenarioC
      (Simulation.build scenarioC ⟨0⟩).tickDataStart ∧
    divisionInv scenarioC
      (divisionVisit scenarioC
        (Simulation.build scenarioC ⟨0⟩).tickDataStart (0, 0)) := by
  have hwf : gridWF scenarioC (Simulation.build scenarioC ⟨0⟩).grid := by
    decide
  have hinv : divisionInv scenarioC
      (Simulation.build scenarioC ⟨0⟩).tickDataStart :=
    claim5_eligibility.2.2.1 (Simulation.build scenarioC ⟨0⟩) hwf
  exact ⟨claim5_eligibility.1 scenarioA _ (0, 0) (by decide),
    claim5_eligibility.2.1 scenarioC _ (0, 0) ⟨1, 0, 1, true⟩ hinv
      (by decide) (by decide),
    hinv,
    claim5_eligibility.2.2.2 scenarioC _ (0, 0) (by decide) hinv⟩

/-! ### The amended Scenario B, for every seed -/

/-- Construction under scenarioB1 places exactly one newborn on some
grid position. -/
theorem build_scenarioB1 (g : RNG) :
    ∃ p, p ∈ rowMajor 5 5 ∧
      (Simulation.build scenarioB1 g).grid =
        setCell (emptyGrid scenarioB1) p (some Cell.newborn) ∧
      (Simulation.build scenarioB1 g).total_cells_created = 1 := by
  set ps := (shuffle (rowMajor 5 5) g).1 with hps
  have hlen : ps.length = 25 := by
    rw [hps, (shuffle_perm _ g).length_eq, length_rowMajor]
  have hne : ps ≠ [] := by
    intro h
    rw [h] at hlen
    simp at hlen
  have hemp : ps.isEmpty = false := by
    cases he : ps.isEmpty
    · rfl
    · exact absurd (List.isEmpty_iff.mp he) hne
  have hmem : ps.getLastD (0, 0) ∈ rowMajor 5 5 :=
    (shuffle_perm _ g).mem_iff.mp (getLastD_mem ps (0, 0) hne)
  have h2 : seedLoop 1 ps (emptyGrid scenarioB1) 0 =
      (setCell (emptyGrid scenarioB1) (ps.getLastD (0, 0))
        (some Cell.newborn), 1, ps.dropLast) := by
    show (if ps.isEmpty then ((emptyGrid scenarioB1), 0, ps)
      else seedLoop 0 ps.dropLast
        (setCell (emptyGrid scenarioB1) (ps.getLastD (0, 0))
          (some Cell.newborn)) 1) = _
    rw [hemp]
    rfl
  refine ⟨ps.getLastD (0, 0), hmem, ?_, ?_⟩
  · show (seedLoop 1 ps (emptyGrid scenarioB1) 0).1 = _
    rw [h2]
  · show (seedLoop 1 ps (emptyGrid scenarioB1) 0).2.1 = _
    rw [h2]

/-- Bounds of the empty 5x5 grid, for every position. -/
theorem emptyB1_bounds : ∀ q ∈ rowMajor 5 5,
    q.1 < (emptyGrid scenarioB1).length ∧
    q.2 < ((emptyGrid scenarioB1).getD q.1 []).length := by
  decide

/-- On the 5x5 grid holding a single aged cell, that cell always has
empty neighbors. -/
theorem scenarioB1_empty_neighbors : ∀ q ∈ rowMajor 5 5,
    emptyNeighbors scenarioB1
      (setCell (emptyGrid scenarioB1) q (some ⟨1, 0, 1, true⟩)) q.1 q.2
      ≠ [] := by
  decide

/-- One tick of scenarioB1 from the one-cell state: one guaranteed
division, no deaths, for any RNG state. -/
theorem scenarioB1_tick (S : Simulation) (p : Nat × Nat)
    (hp : p ∈ rowMajor 5 5) (hcfg : S.config = scenarioB1)
    (hgrid : S.grid = setCell (emptyGrid scenarioB1) p (some Cell.newborn))
    (hcr : S.total_cells_created = 1) (hd : S.total_deaths = 0) :
    S.tick.total_cells_created = 2 ∧ S.tick.total_deaths = 0 := by
  obtain ⟨hb1, hb2⟩ := emptyB1_bounds p hp
  have hAge : agePhase S.grid =
      setCell (emptyGrid scenarioB1) p (some ⟨1, 0, 1, true⟩) := by
    rw [hgrid, agePhase_setCell, agePhase_emptyGrid]
    rfl
  have hDS : deathScan scenarioB1
      (setCell (emptyGrid scenarioB1) p (some ⟨1, 0, 1, true⟩)) [] = [] := by
    apply deathScan_id
    intro q c hq hal
    rw [cellAt_setCell] at hq
    split_ifs at hq with hcond
    · injection hq with hc
      rw [← hc]
      exact ⟨by decide, by decide⟩
    · rw [cellAt_emptyGrid] at hq
      exact Option.noConfusion hq
  have hts : S.tickDataStart =
      { grid := setCell (emptyGrid scenarioB1) p (some ⟨1, 0, 1, true⟩)
        toDie := []
        births := []
        created := 1
        deaths := 0
        byAge := S.deaths_by_age
        byDivisionLimit := S.deaths_by_division_limit
        byOvercrowding := S.deaths_by_overcrowding
        rng := S.rng } := by
    unfold Simulation.tickDataStart
    rw [hcfg, hAge, hDS, hcr, hd]
  have hoc1 : cellAt (setCell (emptyGrid scenarioB1) p
      (some ⟨1, 0, 1, true⟩)) p = some ⟨1, 0, 1, true⟩ :=
    cellAt_setCell_self _ _ _ hb1 hb2
  obtain ⟨l1, l2, hsplit⟩ := List.append_of_mem hp
  have hnd := nodup_rowMajor 5 5
  rw [hsplit] at hnd
  obtain ⟨hnd1, hnd2, hdisj⟩ := List.nodup_append.mp hnd
  have hpl1 : p ∉ l1 := fun hmem => hdisj hmem (List.mem_cons_self _ _)
  have hpl2 : p ∉ l2 := (List.nodup_cons.mp hnd2).1
  set ts0 : TickState :=
      ({ grid := setCell (emptyGrid scenarioB1) p (some ⟨1, 0, 1, true⟩)
         toDie := []
         births := []
         created := 1
         deaths := 0
         byAge := S.deaths_by_age
         byDivisionLimit := S.deaths_by_division_limit
         byOvercrowding := S.deaths_by_overcrowding
         rng := S.rng } : TickState) with hts0
  have hfold1 : l1.foldl (divisionVisit scenarioB1) ts0 = ts0 := by
    apply foldl_divisionVisit_fix
    intro q hq
    have hqp : q ≠ p := fun he => hpl1 (he ▸ hq)
    apply divisionVisit_none
    show cellAt (setCell (emptyGrid scenarioB1) p
      (some ⟨1, 0, 1, true⟩)) q = none
    rw [cellAt_setCell_ne _ _ _ _ hqp, cellAt_emptyGrid]
  have hblt : (ts0.rng.randomLt scenarioB1.division_probability).1 = true := by
    rw [show scenarioB1.division_probability = 1 from rfl]
    exact randomLt_one _
  have hENe : emptyNeighbors scenarioB1 ts0.grid p.1 p.2 ≠ [] :=
    scenarioB1_empty_neighbors p hp
  have hdiv := divisionVisit_divide scenarioB1 ts0 p ⟨1, 0, 1, true⟩ hoc1
    rfl rfl (by decide) hENe hblt
  rw [if_neg (by decide : ¬(scenarioB1.division_limit ≤
    (((⟨1, 0, 1, true⟩ : Cell).divisions + 1 : Nat) : Int)))] at hdiv
  set t : Nat × Nat := (RNG.choose (emptyNeighbors scenarioB1 ts0.grid p.1
    p.2) (ts0.rng.randomLt scenarioB1.division_probability).2).1 with htdef
  have htmem : t ∈ emptyNeighbors scenarioB1 ts0.grid p.1 p.2 :=
    choose_mem _ _ hENe
  obtain ⟨htnone, ht1, ht2⟩ := emptyNeighbors_mem_elim scenarioB1 ts0.grid
    p.1 p.2 t (by decide) (by decide) htmem
  have htwf := emptyB1_bounds t ((mem_rowMajor 5 5 t).mpr ⟨ht1, ht2⟩)
  have hoc1' : cellAt ts0.grid p = some ⟨1, 0, 1, true⟩ := hoc1
  have hpt : p ≠ t := by
    intro he
    rw [← he] at htnone
    exact Option.noConfusion (hoc1'.symm.trans htnone)
  set S' : TickState := { ts0 with
    grid := setCell (setCell ts0.grid p (some ⟨1, 1, 0, true⟩)) t
      (some Cell.newborn)
    births := ts0.births ++ [(t, Cell.newborn)]
    created := ts0.created + 1
    rng := (RNG.choose (emptyNeighbors scenarioB1 ts0.grid p.1 p.2)
      (ts0.rng.randomLt scenarioB1.division_probability).2).2 } with hS'
  have hdiv' : divisionVisit scenarioB1 ts0 p = S' := hdiv
  have hoct : cellAt S'.grid t = some Cell.newborn := by
    show cellAt (setCell (setCell ts0.grid p (some ⟨1, 1, 0, true⟩)) t
      (some Cell.newborn)) t = some Cell.newborn
    apply cellAt_setCell_self
    · rw [length_setCell]
      show t.1 < (setCell (emptyGrid scenarioB1) p
        (some ⟨1, 0, 1, true⟩)).length
      rw [length_setCell]
      exact htwf.1
    · rw [rowLen_setCell]
      show t.2 < ((setCell (emptyGrid scenarioB1) p
        (some ⟨1, 0, 1, true⟩)).getD t.1 []).length
      rw [rowLen_setCell]
      exact htwf.2
  have hfold2 : l2.foldl (divisionVisit scenarioB1) S' = S' := by
    apply foldl_divisionVisit_fix
    intro q hq
    by_cases hqt : q = t
    · subst hqt
      apply divisionVisit_skip
      unfold divisionGuard
      rw [hoct]
      rfl
    · have hqp : q ≠ p := fun he => hpl2 (he ▸ hq)
      apply divisionVisit_none
      show cellAt (setCell (setCell ts0.grid p (some ⟨1, 1, 0, true⟩)) t
        (some Cell.newborn)) q = none
      rw [cellAt_setCell_ne _ _ _ _ hqt, cellAt_setCell_ne _ _ _ _ hqp]
      show cellAt (setCell (emptyGrid scenarioB1) p
        (some ⟨1, 0, 1, true⟩)) q = none
      rw [cellAt_setCell_ne _ _ _ _ hqp, cellAt_emptyGrid]
  have htd : S.tickData = S' := by
    unfold Simulation.tickData
    rw [hcfg, hts]
    show (rowMajor 5 5).foldl (divisionVisit scenarioB1) ts0 = S'
    rw [hsplit, List.foldl_append, List.foldl_cons, hfold1, hdiv', hfold2]
  have hcommit : commitPhase S' = S' := rfl
  constructor
  · show (commitPhase S.tickData).created = 2
    rw [htd, hcommit]
  · show (commitPhase S.tickData).deaths = 0
    rw [htd, hcommit]

/-- Bumping current_tick leaves the creation counter unchanged. -/
theorem withTick_created (sim : Simulation) (n : Nat) :
    ({ sim with current_tick := n } : Simulation).total_cells_created =
    sim.total_cells_created := rfl

/-- Bumping current_tick leaves the death counter unchanged. -/
theorem withTick_deaths (sim : Simulation) (n : Nat) :
    ({ sim with current_tick := n } : Simulation).total_deaths =
    sim.total_deaths := rfl

/-- C3 amended: with division_cooldown raised to 1 (the smallest value
validation accepts) and the other Scenario B parameters unchanged
(5x5 grid, 1 initial cell, probability 1.0, age limit 100, division
limit 100, time limit 1), construction succeeds and the run reports
total_created = 2 and total_deaths = 0 for every seed. -/
theorem claim3_amended (seed : Nat) :
    Simulation.init scenarioB1 ⟨seed⟩ =
      Except.ok (Simulation.build scenarioB1 ⟨seed⟩) ∧
    (Simulation.build scenarioB1 ⟨seed⟩).run.total_cells_created = 2 ∧
    (Simulation.build scenarioB1 ⟨seed⟩).run.total_deaths = 0 := by
  obtain ⟨p, hp, hgrid, hcr⟩ := build_scenarioB1 ⟨seed⟩
  set S := Simulation.build scenarioB1 ⟨seed⟩ with hS
  have hcfg : S.config = scenarioB1 := rfl
  have hd : S.total_deaths = 0 := rfl
  have hct : S.current_tick = 0 := rfl
  have hocc : cellAt S.grid p = some Cell.newborn := by
    rw [hgrid]
    exact cellAt_setCell_self _ _ _ (emptyB1_bounds p hp).1
      (emptyB1_bounds p hp).2
  have hdead : S.allCellsDead = false :=
    allCellsDead_false_of_alive S p Cell.newborn hocc rfl
  have hlt : (S.current_tick : Int) < S.config.time_limit := by
    rw [hct, hcfg]
    decide
  have hrun : S.run = { S.tick with current_tick := S.current_tick + 1 } := by
    show (if (S.current_tick : Int) < S.config.time_limit then
        (if S.allCellsDead = true then S
         else Simulation.runAux 0
           { S.tick with current_tick := S.current_tick + 1 })
        else S) = { S.tick with current_tick := S.current_tick + 1 }
    rw [if_pos hlt, hdead, if_neg Bool.false_ne_true]
    rfl
  have hticks := scenarioB1_tick S p hp hcfg hgrid hcr hd
  refine ⟨init_ok_of_valid scenarioB1 ⟨seed⟩ (by decide), ?_, ?_⟩
  · rw [hrun, withTick_created]
    exact hticks.1
  · rw [hrun, withTick_deaths]
    exact hticks.2

/-- C6: a division-eligible Cell with zero empty neighbors triggers
overcrowding resolution immediately and with no other state change
(first conjunct); resolution adds cause overcrowding to one Patch drawn
by the shared RNG from exactly the maximum-age candidates, merging with
that Patch's existing causes and leaving every other entry untouched
(second conjunct); every candidate Patch holds an Alive cell of the
maximum age over the Alive cells of the 9 region positions (third
conjunct); and every candidate is realised by some RNG state, the
embedding's rendering of the uniform choice (fourth conjunct). -/
theorem claim6_overcrowding :
    (∀ (cfg : Configuration) (s : TickState) (p : Nat × Nat) (cell : Cell),
      cellAt s.grid p = some cell → cell.alive = true →
      s.toDie.find? p = none →
      cfg.division_cooldown ≤ (cell.last_division : Int) →
      emptyNeighbors cfg s.grid p.1 p.2 = [] →
      divisionVisit cfg s p = { s with
        toDie := (handleOvercrowding cfg s.grid s.toDie s.rng p.1 p.2).1
        rng := (handleOvercrowding cfg s.grid s.toDie s.rng p.1 p.2).2 }) ∧
    (∀ (cfg : Configuration) (grid : Grid) (m : DieMap) (g : RNG) (r c : Nat),
      regionCells grid (regionCoords cfg r c) ≠ [] →
      ∃ t, t ∈ oldestPatches (regionCells grid (regionCoords cfg r c)) ∧
        (handleOvercrowding cfg grid m g r c).1 =
          m.addCause t Cause.overcrowding ∧
        (handleOvercrowding cfg grid m g r c).1.find? t =
          some (((m.find? t).getD Causes.empty).add Cause.overcrowding) ∧
        (∀ q, q ≠ t → (handleOvercrowding cfg grid m g r c).1.find? q =
          m.find? q)) ∧
    (∀ (grid : Grid) (coords : List (Nat × Nat)) (t : Nat × Nat),
      t ∈ oldestPatches (regionCells grid coords) →
      ∃ ct, t ∈ coords ∧ cellAt grid t = some ct ∧ ct.alive = true ∧
        ct.age = maxAge (regionCells grid coords) ∧
        ∀ q cq, q ∈ coords → cellAt grid q = some cq → cq.alive = true →
          cq.age ≤ ct.age) ∧
    (∀ (cfg : Configuration) (grid : Grid) (m : DieMap) (r c i : Nat),
      i < (oldestPatches (regionCells grid (regionCoords cfg r c))).length →
      regionCells grid (regionCoords cfg r c) ≠ [] →
      (handleOvercrowding cfg grid m ⟨i⟩ r c).1 =
        m.addCause
          ((oldestPatches (regionCells grid (regionCoords cfg r c))).getD i
            (0, 0)) Cause.overcrowding) := by
  refine ⟨divisionVisit_overcrowding, handleOvercrowding_spec, ?_, ?_⟩
  · intro grid coords t ht
    have hmem := oldestPatches_mem_elim _ t ht
    obtain ⟨hcoord, ct, hoc, halive, hage⟩ :=
      regionCells_mem_elim grid coords (t, maxAge (regionCells grid coords))
        hmem
    refine ⟨ct, hcoord, hoc, halive, hage, ?_⟩
    intro q cq hq hcq hal
    have hq2 := regionCells_mem_intro grid coords q cq hq hcq hal
    have := maxAge_ge (regionCells grid coords) (q, cq.age) hq2
    rw [hage]
    exact this
  · intro cfg grid m r c i hi hne
    unfold handleOvercrowding
    rw [if_neg hne]
    dsimp only
    have hsmall : (oldestPatches (regionCells grid
        (regionCoords cfg r c))).length ≤ 2 ^ 53 := by
      have h1 := oldestPatches_length_le (regionCells grid
        (regionCoords cfg r c))
      have h2 := regionCells_length_le grid (regionCoords cfg r c)
      have h3 := regionCoords_length cfg r c
      have : (9 : Nat) ≤ 2 ^ 53 := by norm_num
      omega
    rw [choose_surjective _ i hi hsmall]

theorem claim6_overcrowding_witness :
    (divisionVisit scenarioC
        (Simulation.build scenarioC ⟨0⟩).tickDataStart (0, 0) =
      { (Simulation.build scenarioC ⟨0⟩).tickDataStart with
        toDie := (handleOvercrowding scenarioC
          (Simulation.build scenarioC ⟨0⟩).tickDataStart.grid
          (Simulation.build scenarioC ⟨0⟩).tickDataStart.toDie
          (Simulation.build scenarioC ⟨0⟩).tickDataStart.rng 0 0).1
        rng := (handleOvercrowding scenarioC
          (Simulation.build scenarioC ⟨0⟩).tickDataStart.grid
          (Simulation.build scenarioC ⟨0⟩).tickDataStart.toDie
          (Simulation.build scenarioC ⟨0⟩).tickDataStart.rng 0 0).2 }) ∧
    (∃ t, t ∈ oldestPatches (regionCells
        (Simulation.build scenarioC ⟨0⟩).tickDataStart.grid
        (regionCoords scenarioC 0 0)) ∧
      (handleOvercrowding scenarioC
        (Simulation.build scenarioC ⟨0⟩).tickDataStart.grid [] ⟨0⟩ 0 0).1 =
        DieMap.addCause [] t Cause.overcrowding ∧
      (handleOvercrowding scenarioC
        (Simulation.build scenarioC ⟨0⟩).tickDataStart.grid [] ⟨0⟩ 0 0).1.find?
          t = some (((DieMap.find? [] t).getD Causes.empty).add
            Cause.overcrowding) ∧
      (∀ q, q ≠ t → (handleOvercrowding scenarioC
        (Simulation.build scenarioC ⟨0⟩).tickDataStart.grid [] ⟨0⟩ 0 0).1.find?
          q = DieMap.find? [] q)) ∧
    (∃ ct, (2, 2) ∈ regionCoords scenarioC 0 0 ∧
      cellAt (Simulation.build scenarioC ⟨0⟩).tickDataStart.grid (2, 2) =
        some ct ∧ ct.alive = true ∧
      ct.age = maxAge (regionCells
        (Simulation.build scenarioC ⟨0⟩).tickDataStart.grid
        (regionCoords scenarioC 0 0)) ∧
      ∀ q cq, q ∈ regionCoords scenarioC 0 0 →
        cellAt (Simulation.build scenarioC ⟨0⟩).tickDataStart.grid q =
          some cq → cq.alive = true → cq.age ≤ ct.age) ∧
    ((handleOvercrowding scenarioC
        (Simulation.build scenarioC ⟨0⟩).tickDataStart.grid [] ⟨0⟩ 0 0).1 =
      DieMap.addCause []
        ((oldestPatches (regionCells
          (Simulation.build scenarioC ⟨0⟩).tickDataStart.grid
          (regionCoords scenarioC 0 0))).getD 0 (0, 0))
        Cause.overcrowding) := by
  refine ⟨claim6_overcrowding.1 scenarioC _ (0, 0) ⟨1, 0, 1, true⟩
      (by decide) (by decide) (by decide) (by decide) (by decide),
    claim6_overcrowding.2.1 scenarioC _ [] ⟨0⟩ 0 0 (by decide),
    claim6_overcrowding.2.2.1 _ (regionCoords scenarioC 0 0) (2, 2)
      (by decide),
    claim6_overcrowding.2.2.2 scenarioC _ [] 0 0 0 (by decide) (by decide)⟩

/-- C10: on any tick of a validly constructed run, a Cell born by
division during that tick never enters the pending-death map and is
still on its Patch, alive and newborn, after that tick's commit: death
scheduling precedes every birth, and overcrowding only ever targets a
cell of maximal age, which is at least 1, while the newborn has age 0. -/
theorem claim10_newborn_immune (cfg : Configuration) (g : RNG)
    (sim : Simulation) (n : Nat)
    (h : Simulation.init cfg g = Except.ok sim) :
    ∀ pc ∈ ((sim.tickN n).tickData).births,
      (sim.tickN n).tickData.toDie.find? pc.1 = none ∧
      cellAt ((sim.tickN n).tick).grid pc.1 = some pc.2 ∧
      pc.2 = Cell.newborn := by
  have hval : validConfig cfg := (init_ok_elim cfg g sim h).1
  have hval' : validConfig (sim.tickN n).config := by
    rw [tickN_config]
    rw [(init_ok_elim cfg g sim h).2]
    exact hval
  have hJ : phase3Inv (sim.tickN n).config (sim.tickN n).tickData :=
    phase3Inv_tickData (sim.tickN n) hval' (SimInv_tickN cfg g sim n h)
  intro pc hpc
  obtain ⟨b1, b2, b3⟩ := hJ.1 pc hpc
  refine ⟨b3, ?_, b1⟩
  show cellAt (commitPhase (sim.tickN n).tickData).grid pc.1 = some pc.2
  have hfold : commitPhase (sim.tickN n).tickData =
      (sim.tickN n).tickData.toDie.foldl commitEntry
        (sim.tickN n).tickData := rfl
  rw [hfold, commit_fold_untouched _ _ _ ?_]
  · exact b2
  · rw [← DieMap.find?_eq_none_iff]
    exact b3

theorem claim10_newborn_immune_witness :
    (Simulation.build scenarioB1 ⟨0⟩).tickData.toDie.find? (4, 4) = none ∧
    cellAt (Simulation.build scenarioB1 ⟨0⟩).tick.grid (4, 4) =
      some Cell.newborn ∧ (Cell.newborn : Cell) = Cell.newborn := by
  have hinit : Simulation.init scenarioB1 ⟨0⟩ =
      Except.ok (Simulation.build scenarioB1 ⟨0⟩) :=
    init_ok_of_valid scenarioB1 ⟨0⟩ (by decide)
  exact claim10_newborn_immune scenarioB1 ⟨0⟩
    (Simulation.build scenarioB1 ⟨0⟩) 0 hinit ((4, 4), Cell.newborn)
    (by decide)

/-- C3 is false as stated: with division_cooldown = 0 the configuration
fails validation ("Division cooldown must be at least 1."), so the
engine is not constructed at all. -/
theorem claim3_counterexample :
    Simulation.init scenarioB ⟨0⟩ =
      Except.error "Division cooldown must be at least 1." := by
  rfl

/-- C1 is false as stated: in the concrete scenarioB1 run from seed 0,
the state at the end of phase 4 (tickData, before any commit) already
has two occupied Patches while the tick started with one: the division
phase places the child Cell on the Grid immediately, while the step is
still traversing it. -/
theorem claim1_counterexample :
    occupiedCount (Simulation.build scenarioB1 ⟨0⟩).tickData.grid = 2 ∧
    occupiedCount (Simulation.build scenarioB1 ⟨0⟩).grid = 1 := by
  constructor
  · decide
  · decide

/-- C1 amended: removals are indeed buffered (the aging phase never
changes which Patches are occupied, and the commit phase can only
remove occupants, never add them), but births are applied to the Grid
immediately during the division phase rather than at commit: the
recorded births list is never consumed, and in a concrete run the
pre-commit grid already holds the newborn. -/
theorem claim1_amended :
    (∀ (grid : Grid) (p : Nat × Nat),
      (cellAt (agePhase grid) p).isSome = (cellAt grid p).isSome) ∧
    (∀ (s : TickState) (p : Nat × Nat) (c : Cell),
      cellAt (commitPhase s).grid p = some c → cellAt s.grid p = some c) ∧
    occupiedCount (Simulation.build scenarioB1 ⟨0⟩).tickData.grid =
      occupiedCount (Simulation.build scenarioB1 ⟨0⟩).grid + 1 := by
  refine ⟨?_, ?_, by decide⟩
  · intro grid p
    rw [cellAt_agePhase, isSome_ageSlot]
  · intro s p c h
    exact commit_fold_occupancy_mono s.toDie s p c h

/-- C4: every Cell killed at a tick's commit is removed from its
Patch's occupancy in that same commit (first conjunct), so the
"every occupant is alive" invariant holds after construction (third
conjunct) and is preserved by every tick (second conjunct): no Patch
ever holds a Dead cell between steps. -/
theorem claim4_dead_removed :
    (∀ (st : TickState) (p : Nat × Nat) (causes : Causes) (c : Cell),
      (p, causes) ∈ st.toDie → cellAt st.grid p = some c →
      c.alive = true → cellAt (commitPhase st).grid p = none) ∧
    (∀ sim : Simulation, allAlive sim.grid → allAlive sim.tick.grid) ∧
    (∀ (cfg : Configuration) (g : RNG) (sim : Simulation),
      Simulation.init cfg g = Except.ok sim → allAlive sim.grid) :=
  ⟨fun st p causes c hmem hc halive =>
      commit_removes st.toDie st p causes c hmem hc halive,
   allAlive_tick, allAlive_init⟩

theorem claim4_dead_removed_witness :
    ((((0, 0), (⟨true, false, false⟩ : Causes)) ∈
        (Simulation.build scenarioA ⟨0⟩).tickData.toDie ∧
      cellAt (Simulation.build scenarioA ⟨0⟩).tickData.grid (0, 0) =
        some ⟨1, 0, 1, true⟩ ∧
      cellAt (commitPhase (Simulation.build scenarioA ⟨0⟩).tickData).grid
        (0, 0) = none) ∧
    allAlive (Simulation.build scenarioA ⟨0⟩).grid ∧
    allAlive (Simulation.build scenarioA ⟨0⟩).tick.grid) := by
  have hinit : Simulation.init scenarioA ⟨0⟩ =
      Except.ok (Simulation.build scenarioA ⟨0⟩) :=
    init_ok_of_valid scenarioA ⟨0⟩ (by decide)
  have h0 : allAlive (Simulation.build scenarioA ⟨0⟩).grid :=
    claim4_dead_removed.2.2 scenarioA ⟨0⟩ _ hinit
  exact ⟨⟨by decide, by decide,
    claim4_dead_removed.1 (Simulation.build scenarioA ⟨0⟩).tickData (0, 0)
      ⟨true, false, false⟩ ⟨1, 0, 1, true⟩ (by decide) (by decide) rfl⟩,
    h0, claim4_dead_removed.2.1 _ h0⟩

theorem claim1_amended_witness :
    (cellAt (agePhase [[some Cell.newborn]]) (0, 0)).isSome =
      (cellAt [[some Cell.newborn]] (0, 0)).isSome ∧
    cellAt (commitPhase (Simulation.build scenarioB1 ⟨0⟩).tickData).grid
      (0, 0) = some ⟨1, 1, 0, true⟩ ∧
    cellAt (Simulation.build scenarioB1 ⟨0⟩).tickData.grid (0, 0) =
      some ⟨1, 1, 0, true⟩ :=
  ⟨claim1_amended.1 [[some Cell.newborn]] (0, 0),
   by decide,
   claim1_amended.2.1 (Simulation.build scenarioB1 ⟨0⟩).tickData (0, 0)
     ⟨1, 1, 0, true⟩ (by decide)⟩

end CellSim
